import Mathlib

/-!
# Labeless: the job queue and request intake of the debugger-side server

A shallow embedding of `labeless_olly/labeless.cpp`:
`ClientData::find`, `ClientData::remove`, `sendAll`, the tick branch of
`Labeless::serverThread`, `Labeless::onCommandReceived(ClientData&)`,
`Labeless::onClientSockAccept`, `Labeless::onClientSockBufferReceived` and
`Labeless::onClientSockRead`; and of `labeless_ida/sync/sync.cpp`: `trimToOllyLimitsString` and the
`serialize` and `parseResponse` of every command.

Conventions.  `std::string` is `String`; `uint64_t` is `Nat` reduced modulo
`2 ^ 64` wherever the source increments it; `SOCKET` is `Option Nat` with
`none` for `INVALID_SOCKET`; `std::deque<Request>` is `List Request` with
`push_back` as append at the end.  The protobuf call
`rpc::Response::SerializeAsString` is a parameter `ser` of every function
that uses it.
-/

namespace Labeless

/-- The modulus of `uint64_t` arithmetic. -/
def U64 : Nat := 2 ^ 64

/-- Modelled from the spec: the `Request` record of `types.h` (§3 "Job"),
with the fields the source reads and writes; a default-constructed request
has id 0, empty strings and both flags false. -/
structure Request where
  id : Nat := 0
  script : String := ""
  scriptExternObj : String := ""
  params : String := ""
  binaryResult : String := ""
  result : String := ""
  error : String := ""
  background : Bool := false
  finished : Bool := false
deriving DecidableEq, Repr

/-- Modelled from the spec: `rpc::Response::JobStatus` of `rpc.pb.h`. -/
inductive JobStatus where
  | JS_PENDING
  | JS_FINISHED
deriving DecidableEq, Repr

/-- Modelled from the spec: the `rpc::Response` envelope of `rpc.pb.h`
(§3 "RPC Response Envelope"); an optional field is `none` until its setter
runs, so `has_error()` is `error.isSome`. -/
structure Response where
  job_id : Option Nat := none
  std_out : String := ""
  std_err : String := ""
  error : Option String := none
  job_status : Option JobStatus := none
  rpc_result : String := ""
deriving DecidableEq, Repr

/-- Modelled from the spec: the decoded `rpc::Execute` message of `rpc.pb.h`
(§6 wire protocol); `job_id = none` is `!has_job_id()`. -/
structure Execute where
  script : String := ""
  script_extern_obj : String := ""
  rpc_request : String := ""
  background : Bool := false
  job_id : Option Nat := none
deriving DecidableEq, Repr

/-- Outcome of `command.ParseFromString(rawCommand)` inside its `try`. -/
inductive ParseOutcome where
  | parsed
  | failed
  | threw
deriving DecidableEq, Repr

/-- Modelled from the spec: the `ClientData` record of `types.h`, with the
members the source uses. -/
structure ClientData where
  s : Option Nat := none
  commands : List Request := []
  stdOut : String := ""
  stdErr : String := ""
  netBuff : String := ""
  peer : String := ""
  peerPort : Nat := 0
deriving DecidableEq, Repr

/-- `ClientData::find`: the first queued request whose id is `jobId`. -/
def find : List Request → Nat → Option Request
  | [], _ => none
  | r :: rest, jobId => if r.id = jobId then some r else find rest jobId

/-- `ClientData::remove`: erase the first queued request whose id is `jobId`;
the flag tells whether one was erased. -/
def remove : List Request → Nat → Bool × List Request
  | [], _ => (false, [])
  | r :: rest, jobId =>
    if r.id = jobId then (true, rest)
    else ((remove rest jobId).1, r :: (remove rest jobId).2)

/-- Assignment through the pointer returned by `ClientData::find`: the first
request whose id is `jobId` is replaced by `f` of it. -/
def updateFound (f : Request → Request) : List Request → Nat → List Request
  | [], _ => []
  | r :: rest, jobId =>
    if r.id = jobId then f r :: rest else r :: updateFound f rest jobId

/-- Assignment through `commands.back()`. -/
def updateBack (f : Request → Request) : List Request → List Request
  | [] => []
  | [r] => [f r]
  | r :: r2 :: rest => r :: updateBack f (r2 :: rest)

/-! ## The tick branch of `serverThread` -/

/-- What one timeout of `WSAWaitForMultipleEvents` does. -/
structure TickResult where
  /-- The client data after the tick. -/
  cd : ClientData
  /-- The socket and buffer handed to `sendAll`, when it is called. -/
  sent : Option (Nat × String)
  /-- Whether the "send() failed" line is logged. -/
  logged : Bool
deriving DecidableEq, Repr

/-- The "look for command result" branch of `Labeless::serverThread`.
`sendOk` is the value returned by `sendAll`, which the branch only logs. -/
def serverTick (sendOk : Bool) (client : ClientData) : TickResult :=
  match client.s with
  | none => { cd := client, sent := none, logged := false }
  | some sock =>
    match client.commands.getLast? with
    | none => { cd := client, sent := none, logged := false }
    | some back =>
      if back.finished then
        { cd := { client with
                  s := none
                  commands :=
                    if !back.background then client.commands.dropLast
                    else updateBack (fun r => { r with finished := false, result := "" })
                           client.commands }
          sent := some (sock, back.result)
          logged := !sendOk }
      else { cd := client, sent := none, logged := false }

/-! ## `onCommandReceived` -/

/-- The calls a running script makes into the `PyOllyMethods` table. -/
inductive PyCall where
  | std_out_handler (str : String)
  | std_err_handler (str : String)
  | set_binary_result (jobId : Nat) (buff : String)
  | set_error (jobId : Nat) (errorStr : String)
deriving DecidableEq, Repr

/-- The job id a side-channel call names, when it names one. -/
def PyCall.target : PyCall → Option Nat
  | .std_out_handler _ => none
  | .std_err_handler _ => none
  | .set_binary_result jobId _ => some jobId
  | .set_error jobId _ => some jobId

/-- The handlers `stdOutHandler`, `stdErrHandler`, `setBinaryResult` and
`olly_set_error`. -/
def pyCall (cd : ClientData) : PyCall → ClientData
  | .std_out_handler str => { cd with stdOut := cd.stdOut ++ str ++ "\n" }
  | .std_err_handler str => { cd with stdErr := cd.stdErr ++ str ++ "\n" }
  | .set_binary_result jobId buff =>
    { cd with commands := updateFound (fun r => { r with binaryResult := buff }) cd.commands jobId }
  | .set_error jobId errorStr =>
    { cd with commands := updateFound (fun r => { r with error := errorStr }) cd.commands jobId }

/-- How `Labeless::onCommandReceived(script, scriptExternObj)` ends: it
returns a flag, or an exception escapes to the `catch (...)`. -/
inductive ExecResult where
  | returned (ok : Bool)
  | threw
deriving DecidableEq, Repr

/-- One run of the script of a job: the handler calls it makes, in order,
and how it ends. -/
structure PyRun where
  calls : List PyCall := []
  result : ExecResult := .returned true
deriving DecidableEq, Repr

/-- The response `onCommandReceived` builds before it looks the request up
again. -/
def execResponse (id : Nat) (res : ExecResult) (out err : String) : Response :=
  match res with
  | .returned ok =>
    { job_id := some id
      error := if ok then none else some "An error occurred"
      std_out := out
      std_err := err }
  | .threw =>
    { job_id := some id
      error := some "Labeless::onCommandReceived() thrown an exception"
      std_out := out
      std_err := err }

/-- The error string left in the request by the second locked block. -/
def finalError (res : ExecResult) (response : Response) (pReq : Request) : String :=
  match res with
  | .returned _ =>
    if pReq.error ≠ "" then
      match response.error with
      | some e => e ++ "\r\n" ++ pReq.error
      | none => pReq.error
    else pReq.error
  | .threw => pReq.error

/-- The response serialized into `pReq->result`. -/
def finalResponse (res : ExecResult) (response : Response) (pReq : Request) : Response :=
  match res with
  | .returned _ =>
    { response with
      error := if pReq.error ≠ "" then some (finalError res response pReq) else response.error
      rpc_result := pReq.binaryResult
      job_status := some .JS_FINISHED }
  | .threw =>
    { response with
      rpc_result := pReq.binaryResult
      job_status := some .JS_FINISHED }

/-- What the second locked block does to the request it found. -/
def finishRequest (ser : Response → String) (res : ExecResult) (response : Response)
    (pReq : Request) : Request :=
  { pReq with
    error := finalError res response pReq
    result := ser (finalResponse res response pReq)
    finished := true }

/-- `Labeless::onCommandReceived(ClientData&)`: run the script of the newest
request and store the serialized response in the request found by its id. -/
def onCommandReceived (ser : Response → String) (run : PyRun) (cd : ClientData) :
    Bool × ClientData :=
  match cd.commands.getLast? with
  | none => (false, cd)
  | some request =>
    let cd1 := { cd with stdOut := "", stdErr := "" }
    let cd2 := run.calls.foldl pyCall cd1
    let response := execResponse request.id run.result cd2.stdOut cd2.stdErr
    match find cd2.commands request.id with
    | none => (false, cd2)
    | some _ =>
      (true, { cd2 with
               commands := updateFound (finishRequest ser run.result response)
                             cd2.commands request.id })

/-! ## `onClientSockBufferReceived` -/

/-- The script `_snprintf_s` writes for an RPC request; the 256-byte buffer
is never filled. -/
def executeScript (id : Nat) : String :=
  "pyexcore.PyExCore.execute(" ++ toString id ++ ")"

/-- The error string after the `try` around `ParseFromString`. -/
def parseError : ParseOutcome → String
  | .parsed => ""
  | .failed => "Unable to parse command"
  | .threw => "Exception occurred, unable to parse command"

/-- The locals of the intake that survive its first `do ... while (0)`. -/
structure Lookup where
  req : Request
  errorStr : String
  response : Response
  commands : List Request
deriving DecidableEq, Repr

/-- The request built from the message before the first block. -/
def newRequest (id : Nat) (command : Execute) : Request :=
  { id := id
    script := command.script
    scriptExternObj := command.script_extern_obj
    params := command.rpc_request
    background := command.background }

/-- The first `do ... while (0)` of the intake: the RPC checks and the poll. -/
def intakeLookup (commands : List Request) (id : Nat) (po : ParseOutcome)
    (command : Execute) : Lookup :=
  let req := newRequest id command
  let errorStr := parseError po
  let response : Response := {}
  if req.params = "" ∨ errorStr ≠ "" then
    { req := req, errorStr := errorStr, response := response, commands := commands }
  else if req.script ≠ "" then
    { req := req, errorStr := "RPC request can't have 'script' value",
      response := response, commands := commands }
  else
    let req := { req with script := executeScript id }
    match command.job_id with
    | none => { req := req, errorStr := errorStr, response := response, commands := commands }
    | some jobId =>
      match find commands jobId with
      | none =>
        { req := req, errorStr := "Job not found", response := response, commands := commands }
      | some pReq =>
        if !pReq.finished then
          { req := req, errorStr := errorStr,
            response := { response with job_status := some .JS_PENDING },
            commands := commands }
        else
          { req := { req with result := pReq.result }, errorStr := errorStr,
            response := { response with job_status := some .JS_FINISHED },
            commands := (remove commands jobId).2 }

/-- The response after the `if` that follows the first block. -/
def intakeResponse (l : Lookup) : Response :=
  if l.errorStr ≠ "" ∨ l.req.background = true ∨ l.response.job_status.isSome = true then
    let r1 := { l.response with job_id := some l.req.id }
    let r2 := if l.errorStr ≠ "" then { r1 with error := some l.errorStr } else r1
    if l.req.background = true ∧ r2.job_status.isSome = false then
      { r2 with job_status := some .JS_PENDING }
    else r2
  else l.response

/-- The request after the `if` that follows the first block. -/
def intakeRequest (ser : Response → String) (l : Lookup) : Request :=
  if l.errorStr ≠ "" ∨ l.req.background = true ∨ l.response.job_status.isSome = true then
    let r1 := if l.req.result = "" then { l.req with result := ser (intakeResponse l) } else l.req
    if !r1.background then { r1 with finished := true } else r1
  else l.req

/-- The server: the function-local static `req_id` and the client data. -/
structure Server where
  req_id : Nat := 0
  cd : ClientData := {}
deriving DecidableEq, Repr

/-- What one call of `onClientSockBufferReceived` produces. -/
structure IntakeResult where
  /-- The value returned. -/
  rv : Bool
  /-- Whether the call reaches the `IsWindow ... && PostMessage(...)`
  statement that raises `hlpCommandReceived`. -/
  notify : Bool
  /-- Whether `PostMessage` is issued: the statement is reached and the
  helper window exists. -/
  posted : Bool
  /-- The local `response` when the call returns. -/
  response : Response
  /-- The state after the call. -/
  server : Server
deriving DecidableEq, Repr

/-- The host side of the notification: `IsWindow(gConfig.helperWnd)` and the
value `PostMessage` returns when it is called. -/
structure Host where
  isWindow : Bool := true
  postMessage : Bool := true
deriving DecidableEq, Repr

/-- `Labeless::onClientSockBufferReceived`, on the outcome of decoding
`rawCommand`. -/
def onClientSockBufferReceived (ser : Response → String) (host : Host) (srv : Server)
    (po : ParseOutcome) (command : Execute) : IntakeResult :=
  let id := (srv.req_id + 1) % U64
  let l := intakeLookup srv.cd.commands id po command
  let req := intakeRequest ser l
  let srv1 : Server := { req_id := id, cd := { srv.cd with commands := l.commands ++ [req] } }
  if l.errorStr ≠ "" ∨ req.finished = true then
    { rv := true, notify := false, posted := false, response := intakeResponse l,
      server := srv1 }
  else
    { rv := host.isWindow && host.postMessage, notify := true, posted := host.isWindow,
      response := intakeResponse l, server := srv1 }

/-! ## Runs of the server -/

/-- The three things that change the queue. -/
inductive Event where
  | intake (host : Host) (po : ParseOutcome) (command : Execute)
  | complete (run : PyRun)
  | tick (sendOk : Bool)
deriving DecidableEq, Repr

/-- One event applied to the server. -/
def step (ser : Response → String) (srv : Server) : Event → Server
  | .intake host po command => (onClientSockBufferReceived ser host srv po command).server
  | .complete run => { srv with cd := (onCommandReceived ser run srv.cd).2 }
  | .tick sendOk => { srv with cd := (serverTick sendOk srv.cd).cd }

/-- A sequence of events applied in order. -/
def runEvents (ser : Response → String) (srv : Server) (evs : List Event) : Server :=
  evs.foldl (step ser) srv

/-- The number of messages received in a sequence of events. -/
def intakes : List Event → Nat
  | [] => 0
  | .intake _ _ _ :: rest => intakes rest + 1
  | _ :: rest => intakes rest

/-- The ids of the queued requests, in queue order. -/
def ids (commands : List Request) : List Nat := commands.map (fun r => r.id)

/-- The ids given to the received messages of a run, in order of receipt. -/
def issuedIds (ser : Response → String) : Server → List Event → List Nat
  | _, [] => []
  | srv, .intake host po command :: rest =>
    (onClientSockBufferReceived ser host srv po command).server.req_id ::
      issuedIds ser (step ser srv (.intake host po command)) rest
  | srv, ev :: rest => issuedIds ser (step ser srv ev) rest

/-- The queue invariant: ids strictly increase along the queue and none
exceeds the counter. -/
def QueueOk (srv : Server) : Prop :=
  (ids srv.cd.commands).Pairwise (· < ·) ∧ ∀ i ∈ ids srv.cd.commands, i ≤ srv.req_id

/-- A toy serializer used to evaluate the definitions on concrete inputs. -/
def showResponse (r : Response) : String :=
  "id=" ++ (match r.job_id with | some i => toString i | none => "-") ++
  ";out=" ++ r.std_out ++ ";err=" ++ r.std_err ++
  ";error=" ++ (match r.error with | some e => e | none => "-") ++
  ";status=" ++ (match r.job_status with
    | some .JS_PENDING => "PENDING" | some .JS_FINISHED => "FINISHED" | none => "-") ++
  ";rpc=" ++ r.rpc_result

/-- The entry a call of the intake pushes: the newest of the queue it
leaves. -/
def recorded (out : IntakeResult) : Option Request :=
  out.server.cd.commands.getLast?

/-- The error field of the response as C9 words it: absent when the script
ran successfully and the job's error string is empty; "An error occurred"
when only the script failed; the job's error string when only that is set;
the former, CRLF, the latter when both. -/
def claimedError (ok : Bool) (jobError : String) : Option String :=
  if ok = true ∧ jobError = "" then none
  else if jobError = "" then some "An error occurred"
  else if ok = true then some jobError
  else some ("An error occurred" ++ "\r\n" ++ jobError)

/-! ## `sendAll` and the tick that calls it -/

/-- One call of `send`: `SOCKET_ERROR`, with the text `wsaErrorToString`
gives for it, or the number of bytes the socket took. -/
inductive SendOutcome where
  | socketError (text : String)
  | sent (n : Nat)
deriving DecidableEq, Repr

/-- What `sendAll` leaves: the value returned, the text written to `error`
when one is written, and the count of bytes sent. -/
structure SendAllResult where
  rv : Bool
  error : Option String
  total_sent : Nat
deriving DecidableEq, Repr

/-- The statements of `sendAll` after its loop. -/
def sendAllFinish (buff : String) (total_sent : Nat) : SendAllResult :=
  { rv := total_sent == buff.length
    error := if total_sent == buff.length then none
             else some "Sent bytes number differs from buffer length"
    total_sent := total_sent }

/-- `sendAll`, on the outcomes of the successive calls of `send`;
`total_sent` is an `unsigned`.  `none` when the loop asks for a further
`send` than the outcomes given. -/
def sendAll (buff : String) : List SendOutcome → Nat → Option SendAllResult
  | [], total_sent =>
    if total_sent < buff.length then none else some (sendAllFinish buff total_sent)
  | o :: rest, total_sent =>
    if total_sent < buff.length then
      match o with
      | .socketError text => some { rv := false, error := some text, total_sent := total_sent }
      | .sent n => sendAll buff rest ((total_sent + n) % 2 ^ 32)
    else some (sendAllFinish buff total_sent)

/-- The tick branch of `serverThread` with `sendAll` run on the outcomes of
the socket. -/
def serverTickSend (outcomes : List SendOutcome) (client : ClientData) : Option TickResult :=
  match client.s, client.commands.getLast? with
  | some _, some back =>
    if back.finished then
      (sendAll back.result outcomes 0).map (fun r => serverTick r.rv client)
    else some (serverTick true client)
  | _, _ => some (serverTick true client)

/-! ## `onClientSockRead` -/

/-- One turn of the loop of `onClientSockRead`: what `ioctlsocket(FIONREAD)`
reports and, when bytes are ready, what the allocation and `recv` do. -/
inductive SockStep where
  | ioctlError
  | idle
  | allocFailed
  | recvError
  | recv (chunk : String)
deriving DecidableEq, Repr

/-- What one call of `onClientSockRead` produces. -/
structure ReadResult where
  /-- The value returned. -/
  rv : Bool
  /-- The buffer passed to `onClientSockBufferReceived`, when it is called. -/
  handed : Option String
  /-- The state after the call. -/
  server : Server
deriving DecidableEq, Repr

/-- The `do ... while (true)` of `onClientSockRead`; `parse` is
`rpc::Execute::ParseFromString` with the message it leaves.  `none` when the
loop asks for a further turn than the steps given. -/
def readLoop (ser : Response → String) (host : Host)
    (parse : String → ParseOutcome × Execute) : Server → List SockStep → Option ReadResult
  | _, [] => none
  | srv, .ioctlError :: _ => some { rv := false, handed := none, server := srv }
  | srv, .idle :: _ =>
    let rawCommand := srv.cd.netBuff
    let srv1 : Server := { srv with cd := { srv.cd with netBuff := "" } }
    let out := onClientSockBufferReceived ser host srv1 (parse rawCommand).1 (parse rawCommand).2
    some { rv := out.rv, handed := some rawCommand, server := out.server }
  | srv, .allocFailed :: _ => some { rv := false, handed := none, server := srv }
  | srv, .recvError :: _ => some { rv := false, handed := none, server := srv }
  | srv, .recv chunk :: rest =>
    if chunk.length = 0 then some { rv := false, handed := none, server := srv }
    else readLoop ser host parse
      { srv with cd := { srv.cd with netBuff := srv.cd.netBuff ++ chunk } } rest

/-- `Labeless::onClientSockRead`. -/
def onClientSockRead (ser : Response → String) (host : Host)
    (parse : String → ParseOutcome × Execute) (srv : Server) (steps : List SockStep) :
    Option ReadResult :=
  match srv.cd.s with
  | none => some { rv := true, handed := none, server := srv }
  | some _ => readLoop ser host parse srv steps

/-- The chunks of a read joined in the order received. -/
def joinChunks : List String → String
  | [] => ""
  | chunk :: rest => chunk ++ joinChunks rest

/-- The search C12 words for `find`: the first queued job with the id. -/
def firstWithId (commands : List Request) (jobId : Nat) : Option Request :=
  commands.find? (fun r => decide (r.id = jobId))

/-! ## The command codec of `labeless_ida/sync/sync.cpp`

The classes of `sync.h`, `RpcData` of `rpcdata.h` and the messages of
`rpc.pb.h` are not in the sources read here; they are modelled from the
members `sync.cpp` uses, with every integer a `Nat` (no conversion between a
message field and the member it is copied to changes the value).  The
protobuf calls are parameters: `IsInitialized`, `SerializeAsString` and
`parseBigMessage`. -/

/-- `OLLY_TEXTLEN`. -/
def OLLY_TEXTLEN : Nat := 256

/-- `trimToOllyLimitsString`: a string of `OLLY_TEXTLEN` bytes or more loses
everything from byte `OLLY_TEXTLEN - 1` on. -/
def trimToOllyLimitsString (s : String) : String :=
  if s.length ≥ OLLY_TEXTLEN then String.mk (s.data.take (OLLY_TEXTLEN - 1)) else s

/-- Modelled from the spec: the `RpcData` record of `rpcdata.h`, with the
members `sync.cpp` uses; `response = none` is a null pointer. -/
structure RpcData where
  script : String := ""
  scriptExternObj : String := ""
  params : String := ""
  jobId : Nat := 0
  response : Option Response := none
deriving DecidableEq, Repr

/-- Modelled from the spec: the members of `ICommand` (`sync.h`) that
`ICommand::parseResponse` writes. -/
structure ICommand where
  stdOut : String := ""
  stdErr : String := ""
  error : String := ""
  jobId : Nat := 0
  pending : Bool := false
deriving DecidableEq, Repr

/-- What a `parseResponse` leaves: the value returned, the command and the
`RpcData` behind `rd` (`none` for a null `rd`). -/
structure CallResult (α : Type) where
  rv : Bool
  self : α
  rd : Option RpcData
deriving DecidableEq, Repr

/-- How a call of `hlp::protobuf::parseBigMessage` ends. -/
inductive Parsed (α : Type) where
  | ok (result : α)
  | failed
  | threw
deriving DecidableEq, Repr

/-- `ICommand::parseResponse`. -/
def ICommand.parseResponse (IsInitialized : Response → Bool) (rd : Option RpcData)
    (self : ICommand) : CallResult ICommand :=
  match rd with
  | none => { rv := false, self := self, rd := rd }
  | some d =>
    match d.response with
    | none => { rv := false, self := self, rd := rd }
    | some response =>
      if !IsInitialized response then { rv := false, self := self, rd := rd }
      else
        let self1 := { self with stdOut := response.std_out, stdErr := response.std_err }
        let self2 := match response.job_id with
          | some j => { self1 with jobId := j }
          | none => self1
        let d2 := match response.job_id with
          | some j => if d.jobId = 0 then { d with jobId := j } else d
          | none => d
        let self3 := match response.job_status with
          | some st => { self2 with pending := decide (st = JobStatus.JS_PENDING) }
          | none => self2
        { rv := true, self := { self3 with error := response.error.getD "" }, rd := some d2 }

/-- `rd->response->rpc_result()`, read after `ICommand::parseResponse`
returned true. -/
def rpcResultOf (rd : Option RpcData) : String :=
  match rd with
  | some d =>
    match d.response with
    | some response => response.rpc_result
    | none => ""
  | none => ""

/-! ### The request messages -/

/-- Modelled from the spec: `rpc::RpcRequest::RequestType`. -/
inductive RequestType where
  | RPCT_UNKNOWN
  | RPCT_MAKE_NAMES
  | RPCT_MAKE_COMMENTS
  | RPCT_GET_MEMORY_MAP
  | RPCT_READ_MEMORY_REGIONS
  | RPCT_ANALYZE_EXTERNAL_REFS
  | RPCT_CHECK_PE_HEADERS
deriving DecidableEq, Repr

/-- Modelled from the spec: one entry of `names` in `rpc::MakeNamesRequest`
and `rpc::MakeCommentsRequest`. -/
structure NameMsg where
  ea : Nat
  name : String
deriving DecidableEq, Repr

/-- Modelled from the spec: `rpc::MakeNamesRequest`. -/
structure MakeNamesRequest where
  base : Nat
  remote_base : Nat
  names : List NameMsg
deriving DecidableEq, Repr

/-- Modelled from the spec: `rpc::MakeCommentsRequest`. -/
structure MakeCommentsRequest where
  base : Nat
  remote_base : Nat
  names : List NameMsg
deriving DecidableEq, Repr

/-- Modelled from the spec: `rpc::ReadMemoryRegionsRequest_Region`. -/
structure RegionMsg where
  addr : Nat
  size : Nat
deriving DecidableEq, Repr

/-- Modelled from the spec: `rpc::ReadMemoryRegionsRequest`. -/
structure ReadMemoryRegionsRequest where
  regions : List RegionMsg
deriving DecidableEq, Repr

/-- Modelled from the spec: `rpc::AnalyzeExternalRefsRequest`. -/
structure AnalyzeExternalRefsRequest where
  ea_from : Nat
  ea_to : Nat
  increment : Nat
  analysing_base : Nat
  analysing_size : Nat
deriving DecidableEq, Repr

/-- Modelled from the spec: `rpc::CheckPEHeadersRequest`. -/
structure CheckPEHeadersRequest where
  base : Nat
  size : Nat
deriving DecidableEq, Repr

/-- Modelled from the spec: `rpc::RpcRequest`, the request envelope; a
payload is `none` until its `mutable_..._req()` is called. -/
structure RpcRequest where
  request_type : RequestType := .RPCT_UNKNOWN
  make_names_req : Option MakeNamesRequest := none
  make_comments_req : Option MakeCommentsRequest := none
  read_memory_regions_req : Option ReadMemoryRegionsRequest := none
  analyze_external_refs_req : Option AnalyzeExternalRefsRequest := none
  check_pe_headers_req : Option CheckPEHeadersRequest := none
deriving DecidableEq, Repr

/-! ### The result messages -/

/-- Modelled from the spec: one entry of `memories` in
`rpc::GetMemoryMapResult`. -/
structure MemoryMsg where
  base : Nat
  size : Nat
  access : Nat
  name : String
deriving DecidableEq, Repr

/-- Modelled from the spec: `rpc::GetMemoryMapResult`. -/
structure GetMemoryMapResult where
  memories : List MemoryMsg
deriving DecidableEq, Repr

/-- Modelled from the spec: one entry of `memories` in
`rpc::ReadMemoryRegionsResult`. -/
structure ReadMemoryMsg where
  addr : Nat
  size : Nat
  mem : String
  protect : Nat
deriving DecidableEq, Repr

/-- Modelled from the spec: `rpc::ReadMemoryRegionsResult`. -/
structure ReadMemoryRegionsResult where
  memories : List ReadMemoryMsg
deriving DecidableEq, Repr

/-- Modelled from the spec: one entry of `api_constants` in
`rpc::AnalyzeExternalRefsResult`. -/
structure ApiConstantMsg where
  ea : Nat
  module : String
  proc : String
deriving DecidableEq, Repr

/-- Modelled from the spec: one entry of `refs` in
`rpc::AnalyzeExternalRefsResult`. -/
structure RefMsg where
  ea : Nat
  len : Nat
  dis : String
  v : Nat
  ref_type : Nat
  module : String
  proc : String
deriving DecidableEq, Repr

/-- Modelled from the spec: `rpc::AnalyzeExternalRefsResult`; `eip` is
`context().eip()`. -/
structure AnalyzeExternalRefsResult where
  eip : Nat
  api_constants : List ApiConstantMsg
  refs : List RefMsg
deriving DecidableEq, Repr

/-- Modelled from the spec: one entry of `exps` in
`rpc::CheckPEHeadersResult`. -/
structure ExportMsg where
  ea : Nat
  ord : Nat
  name : String
deriving DecidableEq, Repr

/-- Modelled from the spec: one entry of `sections` in
`rpc::CheckPEHeadersResult`. -/
structure SectionMsg where
  name : String
  va : Nat
  v_size : Nat
  raw : Nat
  raw_size : Nat
  characteristics : Nat
deriving DecidableEq, Repr

/-- Modelled from the spec: `rpc::CheckPEHeadersResult`. -/
structure CheckPEHeadersResult where
  pe_valid : Bool
  exps : List ExportMsg
  sections : List SectionMsg
deriving DecidableEq, Repr

/-! ### The commands -/

/-- Modelled from the spec: the member `d` of `ExecPyScript`. -/
structure ScriptData where
  ollyScript : String := ""
  idaExtern : String := ""
deriving DecidableEq, Repr

/-- Modelled from the spec: `ExecPyScript` of `sync.h`. -/
structure ExecPyScript extends ICommand where
  d : ScriptData := {}
deriving DecidableEq, Repr

/-- Modelled from the spec: the entries `Data` of `FuncNameSync::data` and
`LocalLabelsSync::data`. -/
structure NameData where
  ea : Nat
  label : String
deriving DecidableEq, Repr

/-- Modelled from the spec: `FuncNameSync` of `sync.h`. -/
structure FuncNameSync extends ICommand where
  base : Nat := 0
  remoteBase : Nat := 0
  data : List NameData := []
deriving DecidableEq, Repr

/-- Modelled from the spec: `LocalLabelsSync` of `sync.h`. -/
structure LocalLabelsSync extends ICommand where
  base : Nat := 0
  remoteBase : Nat := 0
  data : List NameData := []
deriving DecidableEq, Repr

/-- Modelled from the spec: `MemoryRegion`, built from base, size and
access, with its `name`. -/
structure MemoryRegion where
  base : Nat
  size : Nat
  access : Nat
  name : String := ""
deriving DecidableEq, Repr

/-- Modelled from the spec: `GetMemoryMapReq` of `sync.h`. -/
structure GetMemoryMapReq extends ICommand where
  data : List MemoryRegion := []
deriving DecidableEq, Repr

/-- Modelled from the spec: `t_memory`, a requested region and what was
read of it. -/
structure t_memory where
  base : Nat
  size : Nat
  raw : String := ""
  protect : Nat := 0
deriving DecidableEq, Repr

/-- Modelled from the spec: `ReadMemoryRegions` of `sync.h`. -/
structure ReadMemoryRegions extends ICommand where
  data : List t_memory := []
deriving DecidableEq, Repr

/-- Modelled from the spec: `PointerData`. -/
structure PointerData where
  ea : Nat := 0
  module : String := ""
  procName : String := ""
deriving DecidableEq, Repr

/-- Modelled from the spec: `RefData`; `type` holds the `RefType` by its
number. -/
structure RefData where
  instrEA : Nat := 0
  len : Nat := 0
  dis : String := ""
  val : Nat := 0
  type : Nat := 0
  module : String := ""
  proc : String := ""
deriving DecidableEq, Repr

/-- Modelled from the spec: the member `req` of `AnalyzeExternalRefs`. -/
structure ExternalRefsReq where
  eaFrom : Nat := 0
  eaTo : Nat := 0
  increment : Nat := 0
  base : Nat := 0
  size : Nat := 0
deriving DecidableEq, Repr

/-- Modelled from the spec: `AnalyzeExternalRefs` of `sync.h`. -/
structure AnalyzeExternalRefs extends ICommand where
  req : ExternalRefsReq := {}
  eip : Nat := 0
  ptrs : List PointerData := []
  rdl : List RefData := []
deriving DecidableEq, Repr

/-- Modelled from the spec: `ExportItem`. -/
structure ExportItem where
  ea : Nat
  ord : Nat
  name : String
deriving DecidableEq, Repr

/-- Modelled from the spec: `Section`. -/
structure Section where
  name : String
  va : Nat
  v_size : Nat
  raw : Nat
  raw_size : Nat
  characteristics : Nat
deriving DecidableEq, Repr

/-- Modelled from the spec: `CheckPEHeaders` of `sync.h`. -/
structure CheckPEHeaders extends ICommand where
  base : Nat := 0
  size : Nat := 0
  peValid : Bool := false
  exports : List ExportItem := []
  sections : List Section := []
deriving DecidableEq, Repr

/-! ### `serialize` -/

/-- `ExecPyScript::serialize`. -/
def ExecPyScript.serialize (self : ExecPyScript) (rd : RpcData) : Bool × RpcData :=
  (true, { rd with script := self.d.ollyScript, scriptExternObj := self.d.idaExtern })

/-- The `rpcRequest` that `FuncNameSync::serialize` fills. -/
def FuncNameSync.request (self : FuncNameSync) : RpcRequest :=
  { request_type := .RPCT_MAKE_NAMES
    make_names_req := some
      { base := self.base
        remote_base := self.remoteBase
        names := self.data.map
          (fun sd => { ea := sd.ea, name := trimToOllyLimitsString sd.label }) } }

/-- `FuncNameSync::serialize`. -/
def FuncNameSync.serialize (SerializeAsString : RpcRequest → String) (self : FuncNameSync)
    (rd : RpcData) : Bool × RpcData :=
  (true, { rd with script := "", params := SerializeAsString self.request })

/-- The `rpcRequest` that `LocalLabelsSync::serialize` fills. -/
def LocalLabelsSync.request (self : LocalLabelsSync) : RpcRequest :=
  { request_type := .RPCT_MAKE_COMMENTS
    make_comments_req := some
      { base := self.base
        remote_base := self.remoteBase
        names := self.data.map
          (fun sd => { ea := sd.ea, name := trimToOllyLimitsString sd.label }) } }

/-- `LocalLabelsSync::serialize`. -/
def LocalLabelsSync.serialize (SerializeAsString : RpcRequest → String)
    (self : LocalLabelsSync) (rd : RpcData) : Bool × RpcData :=
  (true, { rd with script := "", params := SerializeAsString self.request })

/-- The `rpcRequest` that `GetMemoryMapReq::serialize` fills. -/
def GetMemoryMapReq.request (_self : GetMemoryMapReq) : RpcRequest :=
  { request_type := .RPCT_GET_MEMORY_MAP }

/-- `GetMemoryMapReq::serialize`. -/
def GetMemoryMapReq.serialize (SerializeAsString : RpcRequest → String)
    (self : GetMemoryMapReq) (rd : RpcData) : Bool × RpcData :=
  (true, { rd with script := "", params := SerializeAsString self.request })

/-- The `rpcRequest` that `ReadMemoryRegions::serialize` fills. -/
def ReadMemoryRegions.request (self : ReadMemoryRegions) : RpcRequest :=
  { request_type := .RPCT_READ_MEMORY_REGIONS
    read_memory_regions_req := some
      { regions := self.data.map (fun it => { addr := it.base, size := it.size }) } }

/-- `ReadMemoryRegions::serialize`. -/
def ReadMemoryRegions.serialize (SerializeAsString : RpcRequest → String)
    (self : ReadMemoryRegions) (rd : RpcData) : Bool × RpcData :=
  (true, { rd with script := "", params := SerializeAsString self.request })

/-- The `rpcRequest` that `AnalyzeExternalRefs::serialize` fills. -/
def AnalyzeExternalRefs.request (self : AnalyzeExternalRefs) : RpcRequest :=
  { request_type := .RPCT_ANALYZE_EXTERNAL_REFS
    analyze_external_refs_req := some
      { ea_from := self.req.eaFrom
        ea_to := self.req.eaTo
        increment := self.req.increment
        analysing_base := self.req.base
        analysing_size := self.req.size } }

/-- `AnalyzeExternalRefs::serialize`. -/
def AnalyzeExternalRefs.serialize (SerializeAsString : RpcRequest → String)
    (self : AnalyzeExternalRefs) (rd : RpcData) : Bool × RpcData :=
  (true, { rd with script := "", params := SerializeAsString self.request })

/-- The `rpcRequest` that `CheckPEHeaders::serialize` fills. -/
def CheckPEHeaders.request (self : CheckPEHeaders) : RpcRequest :=
  { request_type := .RPCT_CHECK_PE_HEADERS
    check_pe_headers_req := some { base := self.base, size := self.size } }

/-- `CheckPEHeaders::serialize`. -/
def CheckPEHeaders.serialize (SerializeAsString : RpcRequest → String)
    (self : CheckPEHeaders) (rd : RpcData) : Bool × RpcData :=
  (true, { rd with script := "", params := SerializeAsString self.request })

/-! ### `parseResponse` -/

/-- `ExecPyScript::parseResponse`. -/
def ExecPyScript.parseResponse (IsInitialized : Response → Bool) (rd : Option RpcData)
    (self : ExecPyScript) : CallResult ExecPyScript :=
  let base := ICommand.parseResponse IsInitialized rd self.toICommand
  { rv := base.rv, self := { self with toICommand := base.self }, rd := base.rd }

/-- `FuncNameSync::parseResponse`. -/
def FuncNameSync.parseResponse (IsInitialized : Response → Bool) (rd : Option RpcData)
    (self : FuncNameSync) : CallResult FuncNameSync :=
  let base := ICommand.parseResponse IsInitialized rd self.toICommand
  { rv := base.rv, self := { self with toICommand := base.self }, rd := base.rd }

/-- `LocalLabelsSync::parseResponse`. -/
def LocalLabelsSync.parseResponse (IsInitialized : Response → Bool) (rd : Option RpcData)
    (self : LocalLabelsSync) : CallResult LocalLabelsSync :=
  let base := ICommand.parseResponse IsInitialized rd self.toICommand
  { rv := base.rv, self := { self with toICommand := base.self }, rd := base.rd }

/-- The region `GetMemoryMapReq::parseResponse` builds from one entry. -/
def MemoryRegion.ofMsg (it : MemoryMsg) : MemoryRegion :=
  { base := it.base, size := it.size, access := it.access, name := it.name }

/-- `GetMemoryMapReq::parseResponse`. -/
def GetMemoryMapReq.parseResponse (IsInitialized : Response → Bool)
    (parseBigMessage : String → Parsed GetMemoryMapResult) (rd : Option RpcData)
    (self : GetMemoryMapReq) : CallResult GetMemoryMapReq :=
  let base := ICommand.parseResponse IsInitialized rd self.toICommand
  if !base.rv then { rv := false, self := { self with toICommand := base.self }, rd := base.rd }
  else
    match parseBigMessage (rpcResultOf base.rd) with
    | .ok result =>
      { rv := true
        self := { self with
                  toICommand := base.self
                  data := result.memories.foldl (fun data it => data ++ [MemoryRegion.ofMsg it]) [] }
        rd := base.rd }
    | _ => { rv := false, self := { self with toICommand := base.self }, rd := base.rd }

/-- What the body of the loop of `ReadMemoryRegions::parseResponse` writes
to the region `m` it matched. -/
def t_memory.merge (m : t_memory) (memory : ReadMemoryMsg) : t_memory :=
  { m with raw := memory.mem, protect := if m.protect = 0 then memory.protect else m.protect }

/-- The loop of `ReadMemoryRegions::parseResponse` from index `i` on: the
flag is false when a record disagrees with its region, and the result is
`none` when `data[i]` is read with `i` not below `data.size()`. -/
def ReadMemoryRegions.mergeLoop :
    List ReadMemoryMsg → Nat → List t_memory → Option (Bool × List t_memory)
  | [], _, data => some (true, data)
  | memory :: rest, i, data =>
    if data.length < i then ReadMemoryRegions.mergeLoop rest (i + 1) data
    else
      match data[i]? with
      | none => none
      | some m =>
        if m.base ≠ memory.addr ∨ m.size ≠ memory.size then some (false, data)
        else ReadMemoryRegions.mergeLoop rest (i + 1) (data.set i (m.merge memory))

/-- `ReadMemoryRegions::parseResponse`; `none` when the loop reads past the
end of `data`. -/
def ReadMemoryRegions.parseResponse (IsInitialized : Response → Bool)
    (parseBigMessage : String → Parsed ReadMemoryRegionsResult) (rd : Option RpcData)
    (self : ReadMemoryRegions) : Option (CallResult ReadMemoryRegions) :=
  let base := ICommand.parseResponse IsInitialized rd self.toICommand
  if !base.rv then
    some { rv := false, self := { self with toICommand := base.self }, rd := base.rd }
  else
    match parseBigMessage (rpcResultOf base.rd) with
    | .ok result =>
      (ReadMemoryRegions.mergeLoop result.memories 0 self.data).map
        (fun r => { rv := r.1, self := { toICommand := base.self, data := r.2 }, rd := base.rd })
    | _ => some { rv := false, self := { self with toICommand := base.self }, rd := base.rd }

/-- The record the first loop of `AnalyzeExternalRefs::parseResponse` builds
from one entry. -/
def PointerData.ofMsg (v : ApiConstantMsg) : PointerData :=
  { ea := v.ea, module := v.module, procName := v.proc }

/-- The first loop of `AnalyzeExternalRefs::parseResponse`. -/
def AnalyzeExternalRefs.addPointers (api_constants : List ApiConstantMsg)
    (ptrs : List PointerData) : List PointerData :=
  api_constants.foldl
    (fun ptrs v =>
      if (PointerData.ofMsg v).ea = 0 ∨ (PointerData.ofMsg v).module = "" ∨
          (PointerData.ofMsg v).procName = "" then ptrs
      else ptrs ++ [PointerData.ofMsg v])
    ptrs

/-- The record the second loop of `AnalyzeExternalRefs::parseResponse`
builds from one entry. -/
def RefData.ofMsg (v : RefMsg) : RefData :=
  { instrEA := v.ea, len := v.len, dis := v.dis, val := v.v, type := v.ref_type,
    module := v.module, proc := v.proc }

/-- The second loop of `AnalyzeExternalRefs::parseResponse`. -/
def AnalyzeExternalRefs.addRefs (refs : List RefMsg) (rdl : List RefData) : List RefData :=
  refs.foldl
    (fun rdl v =>
      if (RefData.ofMsg v).instrEA ≠ 0 ∧ (RefData.ofMsg v).val ≠ 0 ∧
          (RefData.ofMsg v).dis ≠ "" ∧ (RefData.ofMsg v).len > 0 ∧
          (RefData.ofMsg v).module ≠ "" ∧ (RefData.ofMsg v).proc ≠ "" then
        rdl ++ [RefData.ofMsg v]
      else rdl)
    rdl

/-- `AnalyzeExternalRefs::parseResponse`. -/
def AnalyzeExternalRefs.parseResponse (IsInitialized : Response → Bool)
    (parseBigMessage : String → Parsed AnalyzeExternalRefsResult) (rd : Option RpcData)
    (self : AnalyzeExternalRefs) : CallResult AnalyzeExternalRefs :=
  let base := ICommand.parseResponse IsInitialized rd self.toICommand
  if !base.rv then { rv := false, self := { self with toICommand := base.self }, rd := base.rd }
  else
    match parseBigMessage (rpcResultOf base.rd) with
    | .ok result =>
      { rv := true
        self := { self with
                  toICommand := base.self
                  eip := result.eip
                  ptrs := AnalyzeExternalRefs.addPointers result.api_constants self.ptrs
                  rdl := AnalyzeExternalRefs.addRefs result.refs self.rdl }
        rd := base.rd }
    | _ => { rv := false, self := { self with toICommand := base.self }, rd := base.rd }

/-- The item `CheckPEHeaders::parseResponse` builds from one export. -/
def ExportItem.ofMsg (it : ExportMsg) : ExportItem :=
  { ea := it.ea, ord := it.ord, name := it.name }

/-- The section `CheckPEHeaders::parseResponse` builds from one entry. -/
def Section.ofMsg (it : SectionMsg) : Section :=
  { name := it.name, va := it.va, v_size := it.v_size, raw := it.raw,
    raw_size := it.raw_size, characteristics := it.characteristics }

/-- `CheckPEHeaders::parseResponse`. -/
def CheckPEHeaders.parseResponse (IsInitialized : Response → Bool)
    (parseBigMessage : String → Parsed CheckPEHeadersResult) (rd : Option RpcData)
    (self : CheckPEHeaders) : CallResult CheckPEHeaders :=
  let base := ICommand.parseResponse IsInitialized rd self.toICommand
  if !base.rv then { rv := false, self := { self with toICommand := base.self }, rd := base.rd }
  else
    match parseBigMessage (rpcResultOf base.rd) with
    | .ok result =>
      { rv := true
        self :=
          if result.pe_valid then
            { self with
              toICommand := base.self
              peValid := result.pe_valid
              exports := result.exps.foldl (fun l it => l ++ [ExportItem.ofMsg it]) self.exports
              sections :=
                result.sections.foldl (fun l it => l ++ [Section.ofMsg it]) self.sections }
          else { self with toICommand := base.self, peValid := result.pe_valid }
        rd := base.rd }
    | _ => { rv := false, self := { self with toICommand := base.self }, rd := base.rd }

/-! ## `onClientSockAccept` -/

/-- Whether `needle` stands at the start of `s`. -/
def startsWith : List Char → List Char → Bool
  | [], _ => true
  | _ :: _, [] => false
  | a :: needle, b :: s => a == b && startsWith needle s

/-- `std::string::find`: the first position, counted from `pos`, at which
`needle` occurs in `s`; `none` is `npos`. -/
def findFrom (needle : List Char) : List Char → Nat → Option Nat
  | [], pos => if needle = [] then some pos else none
  | c :: rest, pos =>
    if startsWith needle (c :: rest) then some pos else findFrom needle rest (pos + 1)

/-- What the calls made by `onClientSockAccept` give: the socket `accept`
returns (`none` for `INVALID_SOCKET`), the text `util::inetAddrToString`
gives for the peer, `ssin.sin_port`, `m_FilterIP`, and whether each of the
three `setsockopt` calls and the `WSAIoctl` call succeeds. -/
structure AcceptEnv where
  s : Option Nat
  peer : String
  sin_port : Nat
  filterIp : String := ""
  keepAlive : Bool := true
  rcvTimeo : Bool := true
  sndTimeo : Bool := true
  keepAliveVals : Bool := true
deriving DecidableEq, Repr

/-- What one call of `onClientSockAccept` produces. -/
structure AcceptResult where
  /-- The value returned. -/
  rv : Bool
  /-- The client data after the call. -/
  cd : ClientData
  /-- The sockets passed to `closesocket`, in order. -/
  closed : List (Option Nat)
deriving DecidableEq, Repr

/-- `Labeless::onClientSockAccept`. -/
def onClientSockAccept (env : AcceptEnv) (cd : ClientData) : AcceptResult :=
  if env.peer = "" then { rv := false, cd := cd, closed := [env.s] }
  else if env.filterIp ≠ "" ∧
      (env.peer = "" ∨ findFrom env.filterIp.data env.peer.data 0 = none) then
    { rv := false, cd := cd, closed := [env.s] }
  else
    match env.s with
    | none => { rv := false, cd := cd, closed := [] }
    | some s =>
      if !env.keepAlive then { rv := false, cd := cd, closed := [] }
      else if !env.rcvTimeo then { rv := false, cd := cd, closed := [] }
      else if !env.sndTimeo then { rv := false, cd := cd, closed := [] }
      else if !env.keepAliveVals then { rv := false, cd := cd, closed := [] }
      else
        { rv := true
          cd := { cd with s := some s, peer := env.peer, peerPort := env.sin_port }
          closed := match cd.s with
            | some old => [some old]
            | none => [] }

/-- The queue as the handler calls of a script leave it: `pyCall` folded
over a client that holds just this queue. -/
def queueAfter (calls : List PyCall) (commands : List Request) : List Request :=
  (calls.foldl pyCall { commands := commands }).commands

/-! ## Lemmas on the queue operations -/

theorem ids_append (a b : List Request) : ids (a ++ b) = ids a ++ ids b := by
  simp [ids]

theorem mem_ids_of_mem {r : Request} {cmds : List Request} (h : r ∈ cmds) : r.id ∈ ids cmds :=
  List.mem_map_of_mem _ h

theorem find_eq_none_iff (cmds : List Request) (jobId : Nat) :
    find cmds jobId = none ↔ jobId ∉ ids cmds := by
  induction cmds with
  | nil => simp [find, ids]
  | cons r rest ih =>
    by_cases h : r.id = jobId
    · simp [find, ids, h]
    · have h2 : ¬ jobId = r.id := fun e => h e.symm
      simpa [find, ids, h, h2] using ih

theorem find_some_mem {cmds : List Request} {jobId : Nat} {r : Request}
    (h : find cmds jobId = some r) : r ∈ cmds ∧ r.id = jobId := by
  induction cmds with
  | nil => simp [find] at h
  | cons a rest ih =>
    by_cases ha : a.id = jobId
    · simp [find, ha] at h
      subst h
      exact ⟨List.mem_cons_self _ _, ha⟩
    · simp [find, ha] at h
      exact ⟨List.mem_cons_of_mem _ (ih h).1, (ih h).2⟩

theorem find_concat_back (front : List Request) (back : Request)
    (h : back.id ∉ ids front) : find (front ++ [back]) back.id = some back := by
  induction front with
  | nil => simp [find]
  | cons a rest ih =>
    have ha : a.id ≠ back.id := by
      intro e
      exact h (by simp [ids, e])
    have hr : back.id ∉ ids rest := by
      intro e
      exact h (by simp [ids] at e ⊢; exact Or.inr e)
    simp [find, ha, ih hr]

theorem remove_sublist (cmds : List Request) (jobId : Nat) :
    List.Sublist (remove cmds jobId).2 cmds := by
  induction cmds with
  | nil => simp [remove]
  | cons r rest ih =>
    by_cases h : r.id = jobId
    · simp [remove, h]
    · simpa [remove, h] using ih

theorem ids_remove_sublist (cmds : List Request) (jobId : Nat) :
    List.Sublist (ids (remove cmds jobId).2) (ids cmds) :=
  (remove_sublist cmds jobId).map _

theorem not_mem_ids_remove (cmds : List Request) (jobId : Nat)
    (hnd : (ids cmds).Nodup) : jobId ∉ ids (remove cmds jobId).2 := by
  induction cmds with
  | nil => simp [remove, ids]
  | cons r rest ih =>
    have hnd2 : r.id ∉ ids rest ∧ (ids rest).Nodup := by
      simpa [ids] using hnd
    by_cases h : r.id = jobId
    · simpa [remove, h] using h ▸ hnd2.1
    · have h2 : ¬ jobId = r.id := fun e => h e.symm
      simpa [remove, h, h2, ids] using ih hnd2.2

theorem ids_updateFound (f : Request → Request) (hf : ∀ r, (f r).id = r.id)
    (cmds : List Request) (jobId : Nat) : ids (updateFound f cmds jobId) = ids cmds := by
  induction cmds with
  | nil => simp [updateFound]
  | cons r rest ih =>
    by_cases h : r.id = jobId
    · simp [updateFound, h, ids, hf]
    · simp only [updateFound, h, if_false]
      simpa [ids] using ih

theorem updateFound_not_mem (f : Request → Request) (cmds : List Request) (jobId : Nat)
    (h : jobId ∉ ids cmds) : updateFound f cmds jobId = cmds := by
  induction cmds with
  | nil => simp [updateFound]
  | cons r rest ih =>
    have h1 : r.id ≠ jobId := by
      intro e
      exact h (by simp [ids, e])
    have h2 : jobId ∉ ids rest := by
      intro e
      exact h (by simp [ids] at e ⊢; exact Or.inr e)
    simp [updateFound, h1, ih h2]

theorem updateFound_concat_back (f : Request → Request) (front : List Request)
    (back : Request) (h : back.id ∉ ids front) :
    updateFound f (front ++ [back]) back.id = front ++ [f back] := by
  induction front with
  | nil => simp [updateFound]
  | cons a rest ih =>
    have ha : a.id ≠ back.id := by
      intro e
      exact h (by simp [ids, e])
    have hr : back.id ∉ ids rest := by
      intro e
      exact h (by simp [ids] at e ⊢; exact Or.inr e)
    simp [updateFound, ha, ih hr]

theorem updateFound_concat_front (f : Request → Request) (front : List Request)
    (back : Request) (jobId : Nat) (h : back.id ≠ jobId) :
    updateFound f (front ++ [back]) jobId = updateFound f front jobId ++ [back] := by
  induction front with
  | nil => simp [updateFound, h]
  | cons a rest ih =>
    by_cases ha : a.id = jobId
    · simp [updateFound, ha]
    · simp [updateFound, ha, ih]

theorem updateBack_concat (f : Request → Request) (front : List Request) (back : Request) :
    updateBack f (front ++ [back]) = front ++ [f back] := by
  induction front with
  | nil => simp [updateBack]
  | cons a rest ih =>
    cases hrest : rest ++ [back] with
    | nil => simp at hrest
    | cons b tl =>
      have : updateBack f (a :: (b :: tl)) = a :: updateBack f (b :: tl) := by
        simp [updateBack]
      rw [List.cons_append, hrest, this, ← hrest, ih]
      simp

theorem ids_updateBack (f : Request → Request) (hf : ∀ r, (f r).id = r.id)
    (cmds : List Request) : ids (updateBack f cmds) = ids cmds := by
  rcases List.eq_nil_or_concat cmds with h | ⟨front, back, h⟩
  · simp [h, updateBack]
  · subst h
    rw [List.concat_eq_append, updateBack_concat]
    simp [ids, hf]

/-! ## What each event does to the ids -/

theorem intakeLookup_req_id (cmds : List Request) (id : Nat) (po : ParseOutcome)
    (command : Execute) : (intakeLookup cmds id po command).req.id = id := by
  unfold intakeLookup
  simp only [newRequest]
  split_ifs <;> try rfl
  split
  · rfl
  · split
    · rfl
    · split_ifs <;> rfl

theorem intakeLookup_commands (cmds : List Request) (id : Nat) (po : ParseOutcome)
    (command : Execute) :
    (intakeLookup cmds id po command).commands = cmds ∨
    ∃ jobId, command.job_id = some jobId ∧
      (intakeLookup cmds id po command).commands = (remove cmds jobId).2 := by
  unfold intakeLookup
  simp only [newRequest]
  split_ifs
  · exact Or.inl rfl
  · exact Or.inl rfl
  · split
    · exact Or.inl rfl
    · rename_i jobId hj
      split
      · exact Or.inl rfl
      · split_ifs
        · exact Or.inl rfl
        · exact Or.inr ⟨jobId, hj, rfl⟩

theorem intakeLookup_commands_sublist (cmds : List Request) (id : Nat) (po : ParseOutcome)
    (command : Execute) : List.Sublist (intakeLookup cmds id po command).commands cmds := by
  rcases intakeLookup_commands cmds id po command with h | ⟨jobId, _, h⟩
  · rw [h]
  · rw [h]
    exact remove_sublist cmds jobId

theorem intakeRequest_id (ser : Response → String) (l : Lookup) :
    (intakeRequest ser l).id = l.req.id := by
  simp only [intakeRequest]
  split_ifs <;> rfl

theorem intake_server (ser : Response → String) (host : Host) (srv : Server)
    (po : ParseOutcome) (command : Execute) :
    (onClientSockBufferReceived ser host srv po command).server =
      { req_id := (srv.req_id + 1) % U64
        cd := { srv.cd with
                commands := (intakeLookup srv.cd.commands ((srv.req_id + 1) % U64) po command).commands ++
                  [intakeRequest ser
                    (intakeLookup srv.cd.commands ((srv.req_id + 1) % U64) po command)] } } := by
  unfold onClientSockBufferReceived
  simp only
  split_ifs <;> rfl

theorem intake_ids (ser : Response → String) (host : Host) (srv : Server)
    (po : ParseOutcome) (command : Execute) :
    ∃ sub, List.Sublist sub (ids srv.cd.commands) ∧
      ids (onClientSockBufferReceived ser host srv po command).server.cd.commands =
        sub ++ [(srv.req_id + 1) % U64] := by
  refine ⟨ids (intakeLookup srv.cd.commands ((srv.req_id + 1) % U64) po command).commands,
    (intakeLookup_commands_sublist _ _ _ _).map _, ?_⟩
  rw [intake_server]
  simp [ids, intakeRequest_id, intakeLookup_req_id]

theorem pyCall_ids (cd : ClientData) (c : PyCall) : ids (pyCall cd c).commands = ids cd.commands := by
  cases c <;> simp [pyCall, ids_updateFound]

theorem foldl_pyCall_ids (calls : List PyCall) (cd : ClientData) :
    ids (calls.foldl pyCall cd).commands = ids cd.commands := by
  induction calls generalizing cd with
  | nil => rfl
  | cons c rest ih => rw [List.foldl_cons, ih, pyCall_ids]

theorem onCommandReceived_ids (ser : Response → String) (run : PyRun) (cd : ClientData) :
    ids (onCommandReceived ser run cd).2.commands = ids cd.commands := by
  unfold onCommandReceived
  split
  · rfl
  · simp only
    split
    · simp [foldl_pyCall_ids]
    · simp only
      rw [ids_updateFound _ (by intro r; rfl), foldl_pyCall_ids]

theorem serverTick_ids (sendOk : Bool) (client : ClientData) :
    List.Sublist (ids (serverTick sendOk client).cd.commands) (ids client.commands) := by
  unfold serverTick
  split
  · exact List.Sublist.refl _
  · split
    · exact List.Sublist.refl _
    · split_ifs with hf hb
      · exact (List.dropLast_sublist _).map _
      · simp only
        rw [ids_updateBack _ (by intro r; rfl)]
      · exact List.Sublist.refl _

theorem step_ids_of_not_intake (ser : Response → String) (srv : Server) (ev : Event)
    (h : intakes [ev] = 0) :
    (step ser srv ev).req_id = srv.req_id ∧
    List.Sublist (ids (step ser srv ev).cd.commands) (ids srv.cd.commands) := by
  cases ev with
  | intake host po command => simp [intakes] at h
  | complete run =>
    refine ⟨rfl, ?_⟩
    simp only [step]
    rw [onCommandReceived_ids]
  | tick sendOk => exact ⟨rfl, serverTick_ids sendOk srv.cd⟩

theorem QueueOk_of_sublist {srv srv2 : Server} (h : QueueOk srv)
    (hid : srv2.req_id = srv.req_id)
    (hs : List.Sublist (ids srv2.cd.commands) (ids srv.cd.commands)) : QueueOk srv2 :=
  ⟨h.1.sublist hs, fun i hi => hid ▸ h.2 i (hs.subset hi)⟩

theorem QueueOk_step (ser : Response → String) (srv : Server) (ev : Event)
    (h : QueueOk srv) (hb : srv.req_id + intakes [ev] < U64) :
    QueueOk (step ser srv ev) ∧ (step ser srv ev).req_id = srv.req_id + intakes [ev] := by
  cases ev with
  | intake host po command =>
    have hb2 : srv.req_id + 1 < U64 := by simpa [intakes] using hb
    obtain ⟨sub, hsub, hids⟩ := intake_ids ser host srv po command
    have hid : (onClientSockBufferReceived ser host srv po command).server.req_id
        = srv.req_id + 1 := by
      rw [intake_server]
      exact Nat.mod_eq_of_lt hb2
    rw [Nat.mod_eq_of_lt hb2] at hids
    refine ⟨⟨?_, ?_⟩, by simpa [step, intakes] using hid⟩
    · simp only [step]
      rw [hids, List.pairwise_append]
      refine ⟨h.1.sublist hsub, by simp, ?_⟩
      intro a ha b hb3
      have := h.2 a (hsub.subset ha)
      simp at hb3
      omega
    · simp only [step]
      rw [hids, hid]
      intro i hi
      rcases List.mem_append.1 hi with hi | hi
      · have := h.2 i (hsub.subset hi)
        omega
      · simp at hi
        omega
  | complete run =>
    have hs := step_ids_of_not_intake ser srv (.complete run) rfl
    exact ⟨QueueOk_of_sublist h hs.1 hs.2, by simpa [intakes] using hs.1⟩
  | tick sendOk =>
    have hs := step_ids_of_not_intake ser srv (.tick sendOk) rfl
    exact ⟨QueueOk_of_sublist h hs.1 hs.2, by simpa [intakes] using hs.1⟩

theorem intakes_cons (ev : Event) (evs : List Event) :
    intakes (ev :: evs) = intakes [ev] + intakes evs := by
  cases ev with
  | intake host po command =>
    simp [intakes]
    omega
  | complete run => simp [intakes]
  | tick sendOk => simp [intakes]

theorem QueueOk_runEvents (ser : Response → String) (evs : List Event) (srv : Server)
    (h : QueueOk srv) (hb : srv.req_id + intakes evs < U64) :
    QueueOk (runEvents ser srv evs) ∧
    (runEvents ser srv evs).req_id = srv.req_id + intakes evs := by
  induction evs generalizing srv with
  | nil => exact ⟨h, by simp [runEvents, intakes]⟩
  | cons ev rest ih =>
    rw [intakes_cons] at hb ⊢
    have h1 := QueueOk_step ser srv ev h (by omega)
    have h2 := ih (step ser srv ev) h1.1 (by rw [h1.2]; omega)
    simp only [runEvents, List.foldl_cons] at h2 ⊢
    exact ⟨h2.1, by rw [h2.2, h1.2]; omega⟩

theorem issuedIds_eq (ser : Response → String) (evs : List Event) (srv : Server)
    (hb : srv.req_id + intakes evs < U64) :
    issuedIds ser srv evs = List.range' (srv.req_id + 1) (intakes evs) := by
  induction evs generalizing srv with
  | nil => simp [issuedIds, intakes]
  | cons ev rest ih =>
    cases ev with
    | intake host po command =>
      have hb2 : srv.req_id + (intakes rest + 1) < U64 := by simpa [intakes] using hb
      have hid : (onClientSockBufferReceived ser host srv po command).server.req_id
          = srv.req_id + 1 := by
        rw [intake_server]
        exact Nat.mod_eq_of_lt (by omega)
      have hstep : (step ser srv (.intake host po command)).req_id = srv.req_id + 1 := hid
      simp only [issuedIds, intakes]
      rw [ih _ (by rw [hstep]; omega), hid, hstep, List.range'_succ]
    | complete run =>
      simp only [issuedIds, intakes]
      exact ih _ (by simpa [intakes, step] using hb)
    | tick sendOk =>
      simp only [issuedIds, intakes]
      exact ih _ (by simpa [intakes, step] using hb)

/-! ## Job ids -/

/-- C1: from an empty queue and a zero counter, after any sequence of
intakes, completions and ticks that holds fewer than 2^64 intakes, the ids
of the queued jobs strictly increase along the queue, are pairwise distinct,
and none exceeds the counter; the counter equals the number of messages
received and the k-th message received was given id k, whatever the outcome
of decoding it and whatever it asks for. -/
theorem job_ids_increasing (ser : Response → String) (srv0 : Server) (evs : List Event)
    (h0 : srv0.req_id = 0) (hq : srv0.cd.commands = []) (hn : intakes evs < 2 ^ 64) :
    (ids (runEvents ser srv0 evs).cd.commands).Pairwise (· < ·) ∧
    (ids (runEvents ser srv0 evs).cd.commands).Nodup ∧
    (∀ r ∈ (runEvents ser srv0 evs).cd.commands, r.id ≤ (runEvents ser srv0 evs).req_id) ∧
    (runEvents ser srv0 evs).req_id = intakes evs ∧
    issuedIds ser srv0 evs = List.range' 1 (intakes evs) := by
  have hok : QueueOk srv0 := by simp [QueueOk, hq, ids]
  have hb : srv0.req_id + intakes evs < U64 := by simpa [h0, U64] using hn
  have h := QueueOk_runEvents ser evs srv0 hok hb
  refine ⟨h.1.1, ?_, ?_, by simpa [h0] using h.2, ?_⟩
  · exact h.1.1.imp (fun hlt => Nat.ne_of_lt hlt)
  · intro r hr
    exact h.1.2 r.id (mem_ids_of_mem hr)
  · simpa [h0] using issuedIds_eq ser evs srv0 hb

/-- The id theorem on a run of four messages (a script job, a rejected
message, an undecodable one and a poll) with a completion and a tick in
between: the messages get ids 1, 2, 3, 4. -/
theorem job_ids_increasing_witness :
    issuedIds showResponse {}
      [.intake {} .parsed { script := "print 1" },
       .complete {},
       .intake {} .parsed { script := "x", rpc_request := "p" },
       .tick true,
       .intake {} .failed {},
       .intake {} .parsed { rpc_request := "p", job_id := some 1 }] = [1, 2, 3, 4] :=
  (job_ids_increasing showResponse {}
      [.intake {} .parsed { script := "print 1" },
       .complete {},
       .intake {} .parsed { script := "x", rpc_request := "p" },
       .tick true,
       .intake {} .failed {},
       .intake {} .parsed { rpc_request := "p", job_id := some 1 }]
      rfl rfl (by decide)).2.2.2.2

/-! ## Tick delivery -/

theorem foldl_pyCall_targets (calls : List PyCall) (cd : ClientData) (front : List Request)
    (b : Request) (hq : cd.commands = front ++ [b]) (hb : b.id ∉ ids front)
    (ht : ∀ c ∈ calls, c.target = none ∨ c.target = some b.id) :
    ∃ b2, (calls.foldl pyCall cd).commands = front ++ [b2] ∧ b2.id = b.id ∧
      b2 = { b with binaryResult := b2.binaryResult, error := b2.error } := by
  induction calls generalizing cd b with
  | nil => exact ⟨b, hq, rfl, rfl⟩
  | cons c rest ih =>
    have hrest : ∀ c ∈ rest, c.target = none ∨ c.target = some b.id :=
      fun c hc => ht c (List.mem_cons_of_mem _ hc)
    have hc := ht c (List.mem_cons_self _ _)
    rw [List.foldl_cons]
    cases c with
    | std_out_handler str => exact ih (pyCall cd (.std_out_handler str)) b hq hb hrest
    | std_err_handler str => exact ih (pyCall cd (.std_err_handler str)) b hq hb hrest
    | set_binary_result jobId buff =>
      have hj : jobId = b.id := by simpa [PyCall.target] using hc
      subst hj
      obtain ⟨b2, h1, h2, h3⟩ := ih (pyCall cd (.set_binary_result b.id buff))
        { b with binaryResult := buff }
        (by simp [pyCall, hq, updateFound_concat_back _ _ _ hb]) hb hrest
      exact ⟨b2, h1, h2, by rw [h3]⟩
    | set_error jobId errorStr =>
      have hj : jobId = b.id := by simpa [PyCall.target] using hc
      subst hj
      obtain ⟨b2, h1, h2, h3⟩ := ih (pyCall cd (.set_error b.id errorStr))
        { b with error := errorStr }
        (by simp [pyCall, hq, updateFound_concat_back _ _ _ hb]) hb hrest
      exact ⟨b2, h1, h2, by rw [h3]⟩

theorem finishRequest_returned (ser : Response → String) (ok : Bool) (id : Nat)
    (out err : String) (r : Request) :
    finishRequest ser (.returned ok) (execResponse id (.returned ok) out err) r =
      { r with
        finished := true
        error := if ok = false ∧ r.error ≠ "" then "An error occurred" ++ "\r\n" ++ r.error
                 else r.error
        result := ser { job_id := some id, std_out := out, std_err := err,
                        error := claimedError ok r.error,
                        job_status := some .JS_FINISHED, rpc_result := r.binaryResult } } := by
  cases ok <;> by_cases he : r.error = "" <;>
    simp [finishRequest, finalError, finalResponse, execResponse, claimedError, he]

theorem pyCall_commands_congr (cd1 cd2 : ClientData) (c : PyCall)
    (h : cd1.commands = cd2.commands) : (pyCall cd1 c).commands = (pyCall cd2 c).commands := by
  cases c <;> simp [pyCall, h]

theorem foldl_pyCall_congr (calls : List PyCall) (cd1 cd2 : ClientData)
    (h : cd1.commands = cd2.commands) :
    (calls.foldl pyCall cd1).commands = (calls.foldl pyCall cd2).commands := by
  induction calls generalizing cd1 cd2 with
  | nil => exact h
  | cons c rest ih =>
    rw [List.foldl_cons, List.foldl_cons]
    exact ih _ _ (pyCall_commands_congr cd1 cd2 c h)

theorem foldl_pyCall_commands (calls : List PyCall) (cd : ClientData) :
    (calls.foldl pyCall cd).commands = queueAfter calls cd.commands :=
  foldl_pyCall_congr calls cd { commands := cd.commands } rfl

theorem queueAfter_cons (c : PyCall) (rest : List PyCall) (commands : List Request) :
    queueAfter (c :: rest) commands =
      queueAfter rest (pyCall { commands := commands } c).commands := by
  unfold queueAfter
  rw [List.foldl_cons]
  exact foldl_pyCall_congr rest _ _ rfl

theorem pyCall_split (c : PyCall) (front : List Request) (b : Request)
    (hb : b.id ∉ ids front) :
    ∃ b2, (pyCall { commands := [b] } c).commands = [b2] ∧ b2.id = b.id ∧
      b2 = { b with binaryResult := b2.binaryResult, error := b2.error } ∧
      (pyCall { commands := front ++ [b] } c).commands =
        (pyCall { commands := front } c).commands ++ [b2] ∧
      ids (pyCall { commands := front } c).commands = ids front := by
  cases c with
  | std_out_handler str => exact ⟨b, rfl, rfl, rfl, rfl, rfl⟩
  | std_err_handler str => exact ⟨b, rfl, rfl, rfl, rfl, rfl⟩
  | set_binary_result jobId buff =>
    by_cases hj : b.id = jobId
    · subst hj
      refine ⟨{ b with binaryResult := buff }, by simp [pyCall, updateFound], rfl, rfl, ?_, ?_⟩
      · simp [pyCall, updateFound_concat_back _ _ _ hb, updateFound_not_mem _ _ _ hb]
      · simp [pyCall, updateFound_not_mem _ _ _ hb]
    · refine ⟨b, by simp [pyCall, updateFound, hj], rfl, rfl, ?_, ?_⟩
      · simp [pyCall, updateFound_concat_front _ _ _ _ hj]
      · simp [pyCall, ids_updateFound]
  | set_error jobId errorStr =>
    by_cases hj : b.id = jobId
    · subst hj
      refine ⟨{ b with error := errorStr }, by simp [pyCall, updateFound], rfl, rfl, ?_, ?_⟩
      · simp [pyCall, updateFound_concat_back _ _ _ hb, updateFound_not_mem _ _ _ hb]
      · simp [pyCall, updateFound_not_mem _ _ _ hb]
    · refine ⟨b, by simp [pyCall, updateFound, hj], rfl, rfl, ?_, ?_⟩
      · simp [pyCall, updateFound_concat_front _ _ _ _ hj]
      · simp [pyCall, ids_updateFound]

theorem queueAfter_split (calls : List PyCall) (front : List Request) (b : Request)
    (hb : b.id ∉ ids front) :
    ∃ b2, queueAfter calls [b] = [b2] ∧ b2.id = b.id ∧
      b2 = { b with binaryResult := b2.binaryResult, error := b2.error } ∧
      queueAfter calls (front ++ [b]) = queueAfter calls front ++ [b2] ∧
      ids (queueAfter calls front) = ids front := by
  induction calls generalizing front b with
  | nil => exact ⟨b, rfl, rfl, rfl, rfl, rfl⟩
  | cons c rest ih =>
    obtain ⟨b1, h1, h2, h3, h4, h5⟩ := pyCall_split c front b hb
    obtain ⟨b2, k1, k2, k3, k4, k5⟩ := ih (pyCall { commands := front } c).commands b1
      (by rw [h5, h2]; exact hb)
    refine ⟨b2, ?_, k2.trans h2, ?_, ?_, ?_⟩
    · rw [queueAfter_cons, h1, k1]
    · rw [k3, h3]
    · rw [queueAfter_cons, queueAfter_cons, h4, k4]
    · rw [queueAfter_cons, k5, h5]

theorem queueAfter_untouched (calls : List PyCall) (front : List Request)
    (h : ∀ c ∈ calls, ∀ r ∈ front, c.target ≠ some r.id) : queueAfter calls front = front := by
  induction calls with
  | nil => rfl
  | cons c rest ih =>
    have hc := h c (List.mem_cons_self _ _)
    have hstep : (pyCall { commands := front } c).commands = front := by
      cases c with
      | std_out_handler str => rfl
      | std_err_handler str => rfl
      | set_binary_result jobId buff =>
        have hn : jobId ∉ ids front := by
          intro hm
          obtain ⟨r, hr, hid⟩ := List.mem_map.1 hm
          exact hc r hr (by simp [PyCall.target, hid])
        simp [pyCall, updateFound_not_mem _ _ _ hn]
      | set_error jobId errorStr =>
        have hn : jobId ∉ ids front := by
          intro hm
          obtain ⟨r, hr, hid⟩ := List.mem_map.1 hm
          exact hc r hr (by simp [PyCall.target, hid])
        simp [pyCall, updateFound_not_mem _ _ _ hn]
    rw [queueAfter_cons, hstep]
    exact ih (fun c hc2 => h c (List.mem_cons_of_mem _ hc2))

theorem finishRequest_threw (ser : Response → String) (id : Nat) (out err : String)
    (r : Request) :
    finishRequest ser .threw (execResponse id .threw out err) r =
      { r with
        finished := true
        result := ser { job_id := some id, std_out := out, std_err := err,
                        error := some "Labeless::onCommandReceived() thrown an exception",
                        job_status := some .JS_FINISHED, rpc_result := r.binaryResult } } := by
  simp [finishRequest, finalError, finalResponse, execResponse]

/-- C9 fails as stated, at two runs.  The script of job 2 calls
`set_error(1, "x")`, and job 1, which is not the newest, now holds the error
"x".  An exception escapes the run of job 1, and the error field of its
response is the text of the `catch`, which is none of the texts the claim
lists. -/
theorem onCommandReceived_changes_other_job :
    (onCommandReceived showResponse { calls := [.set_error 1 "x"], result := .returned true }
        { commands := [{ id := 1 }, { id := 2 }] }).2.commands =
      [{ id := 1, error := "x" },
       { id := 2, finished := true,
         result := "id=2;out=;err=;error=-;status=FINISHED;rpc=" }] ∧
    (onCommandReceived showResponse { calls := [], result := .threw }
        { commands := [{ id := 1 }] }).2.commands =
      [{ id := 1, finished := true,
         result := "id=1;out=;err=;error=Labeless::onCommandReceived() thrown an exception;status=FINISHED;rpc=" }] := by
  decide

/-- C9, as the code has it: for a non-empty queue with pairwise distinct
ids, when the run of the script of the newest job ends, that job becomes
finished and its result is the serialized response with its id, the captured
stdout and stderr, its binaryResult as rpcResult and status FINISHED.  When
the script returns, the error field is the one worded in `claimedError` and
a failed script with a job error leaves the joined text as the job's error;
when an exception escapes, the error field is the text of the `catch` and
the job's error is not merged.  Every other job is as the script's own
`set_binary_result` and `set_error` calls left it, so unchanged when no call
names one of them, and keeps its id and position; those calls change nothing
of the newest job but binaryResult and error. -/
theorem onCommandReceived_finishes (ser : Response → String) (cd : ClientData)
    (front : List Request) (back : Request) (run : PyRun)
    (hq : cd.commands = front ++ [back]) (hnd : (ids cd.commands).Nodup) :
    ∃ mid back2,
      mid = run.calls.foldl pyCall { cd with stdOut := "", stdErr := "" } ∧
      queueAfter run.calls [back] = [back2] ∧
      back2 = { back with binaryResult := back2.binaryResult, error := back2.error } ∧
      onCommandReceived ser run cd =
        (true, { mid with commands := queueAfter run.calls front ++ [{ back2 with
            finished := true
            error := match run.result with
              | .returned ok =>
                if ok = false ∧ back2.error ≠ "" then
                  "An error occurred" ++ "\r\n" ++ back2.error
                else back2.error
              | .threw => back2.error
            result := ser
              { job_id := some back.id, std_out := mid.stdOut, std_err := mid.stdErr
                error := match run.result with
                  | .returned ok => claimedError ok back2.error
                  | .threw => some "Labeless::onCommandReceived() thrown an exception"
                job_status := some .JS_FINISHED
                rpc_result := back2.binaryResult } }] }) ∧
      ids (queueAfter run.calls front) = ids front ∧
      ((∀ c ∈ run.calls, ∀ r ∈ front, c.target ≠ some r.id) →
        queueAfter run.calls front = front) := by
  have hl : cd.commands.getLast? = some back := by simp [hq]
  have hbf : back.id ∉ ids front := by
    rw [hq, ids_append] at hnd
    intro hmem
    exact (List.nodup_append.1 hnd).2.2 hmem (by simp [ids])
  obtain ⟨back2, h1, h2, h3, h4, h5⟩ := queueAfter_split run.calls front back hbf
  have hc : (run.calls.foldl pyCall { cd with stdOut := "", stdErr := "" }).commands
      = queueAfter run.calls front ++ [back2] := by
    rw [foldl_pyCall_commands]
    simp only [hq]
    exact h4
  have hb2 : back2.id ∉ ids (queueAfter run.calls front) := by
    rw [h2, h5]
    exact hbf
  have hfind : find (run.calls.foldl pyCall { cd with stdOut := "", stdErr := "" }).commands
      back.id = some back2 := by
    rw [hc, ← h2]
    exact find_concat_back _ back2 hb2
  refine ⟨_, back2, rfl, h1, h3, ?_, h5, queueAfter_untouched run.calls front⟩
  unfold onCommandReceived
  simp only [hl, hfind]
  rw [hc, ← h2, updateFound_concat_back _ _ _ hb2]
  cases hres : run.result with
  | returned ok => rw [finishRequest_returned]
  | threw => rw [finishRequest_threw]

/-- The completion theorem at a queue of two jobs whose newest script fails
after printing "hi" and setting the error "bad" for itself. -/
theorem onCommandReceived_finishes_witness :
    (ids [({ id := 1 } : Request), { id := 2, script := "boom" }]).Nodup ∧
    (onCommandReceived showResponse
        { calls := [.std_out_handler "hi", .set_error 2 "bad"], result := .returned false }
        { commands := [{ id := 1 }, { id := 2, script := "boom" }] }).1 = true := by
  refine ⟨by decide, ?_⟩
  obtain ⟨mid, back2, _, _, _, heq, _⟩ :=
    onCommandReceived_finishes showResponse
      { commands := [{ id := 1 }, { id := 2, script := "boom" }] }
      [{ id := 1 }] { id := 2, script := "boom" }
      { calls := [.std_out_handler "hi", .set_error 2 "bad"], result := .returned false }
      rfl (by decide)
  rw [heq]

/-! ## Intake of a message -/

theorem intakeLookup_no_rpc (cmds : List Request) (id : Nat) (command : Execute)
    (hp : command.rpc_request = "") :
    intakeLookup cmds id .parsed command =
      { req := newRequest id command, errorStr := "", response := {}, commands := cmds } := by
  simp [intakeLookup, newRequest, parseError, hp]

theorem intakeLookup_rpc_no_job (cmds : List Request) (id : Nat) (command : Execute)
    (hp : command.rpc_request ≠ "") (hs : command.script = "") (hj : command.job_id = none) :
    intakeLookup cmds id .parsed command =
      { req := { newRequest id command with script := executeScript id }, errorStr := "",
        response := {}, commands := cmds } := by
  simp [intakeLookup, newRequest, parseError, hp, hs, hj]

theorem intakeLookup_rpc_script (cmds : List Request) (id : Nat) (command : Execute)
    (hp : command.rpc_request ≠ "") (hs : command.script ≠ "") :
    intakeLookup cmds id .parsed command =
      { req := newRequest id command, errorStr := "RPC request can't have 'script' value",
        response := {}, commands := cmds } := by
  simp [intakeLookup, newRequest, parseError, hp, hs]

theorem intakeLookup_poll (cmds : List Request) (id : Nat) (command : Execute) (jobId : Nat)
    (hp : command.rpc_request ≠ "") (hs : command.script = "")
    (hj : command.job_id = some jobId) :
    intakeLookup cmds id .parsed command =
      match find cmds jobId with
      | none =>
        { req := { newRequest id command with script := executeScript id },
          errorStr := "Job not found", response := {}, commands := cmds }
      | some pReq =>
        if pReq.finished = true then
          { req := { newRequest id command with
                     script := executeScript id, result := pReq.result },
            errorStr := "", response := { job_status := some .JS_FINISHED },
            commands := (remove cmds jobId).2 }
        else
          { req := { newRequest id command with script := executeScript id },
            errorStr := "", response := { job_status := some .JS_PENDING },
            commands := cmds } := by
  simp only [intakeLookup, newRequest, parseError, hp, hs, hj]
  cases find cmds jobId with
  | none => simp
  | some pReq => cases hf : pReq.finished <;> simp [hf]

/-- C8: a decoded message with no jobId and not both a script and an rpc
payload appends exactly one job to the queue, after all earlier jobs, which
are unchanged; its id is the next counter value, which no queued job has;
it is not finished; externObject, params and background are the message's;
its script is the client's when the rpc payload is empty and otherwise
`pyexcore.PyExCore.execute(<id>)` for its own id; and the intake goes on to
the notification statement, posting the message when the helper window
exists. -/
theorem intake_new_job (ser : Response → String) (host : Host) (srv : Server)
    (command : Execute) (hj : command.job_id = none)
    (hw : command.script = "" ∨ command.rpc_request = "")
    (hinv : ∀ r ∈ srv.cd.commands, r.id ≤ srv.req_id) (hc : srv.req_id + 1 < 2 ^ 64) :
    (onClientSockBufferReceived ser host srv .parsed command).server =
      { req_id := srv.req_id + 1
        cd := { srv.cd with commands := srv.cd.commands ++ [{
          id := srv.req_id + 1
          script := if command.rpc_request = "" then command.script
                    else "pyexcore.PyExCore.execute(" ++ toString (srv.req_id + 1) ++ ")"
          scriptExternObj := command.script_extern_obj
          params := command.rpc_request
          background := command.background
          finished := false
          result := if command.background = true then
                      ser { job_id := some (srv.req_id + 1), job_status := some .JS_PENDING }
                    else "" }] } } ∧
    (∀ r ∈ srv.cd.commands, r.id ≠ srv.req_id + 1) ∧
    (onClientSockBufferReceived ser host srv .parsed command).notify = true ∧
    (onClientSockBufferReceived ser host srv .parsed command).posted = host.isWindow ∧
    (onClientSockBufferReceived ser host srv .parsed command).rv
      = (host.isWindow && host.postMessage) := by
  have hmod : (srv.req_id + 1) % U64 = srv.req_id + 1 := Nat.mod_eq_of_lt (by simpa [U64] using hc)
  have hfresh : ∀ r ∈ srv.cd.commands, r.id ≠ srv.req_id + 1 := by
    intro r hr
    have := hinv r hr
    omega
  by_cases hp : command.rpc_request = ""
  · have hl := intakeLookup_no_rpc srv.cd.commands (srv.req_id + 1) command hp
    cases hb : command.background <;>
      simpa [onClientSockBufferReceived, hmod, hl, intakeRequest, intakeResponse, newRequest,
        hp, hb] using hfresh
  · have hs : command.script = "" := hw.resolve_right hp
    have hl := intakeLookup_rpc_no_job srv.cd.commands (srv.req_id + 1) command hp hs hj
    cases hb : command.background <;>
      simpa [onClientSockBufferReceived, hmod, hl, intakeRequest, intakeResponse, newRequest,
        hp, hb, executeScript] using hfresh

/-- The new-job theorem at an rpc message received after job 1. -/
theorem intake_new_job_witness :
    (onClientSockBufferReceived showResponse {}
        { req_id := 1, cd := { commands := [{ id := 1 }] } } .parsed
        { rpc_request := "p" }).server.cd.commands =
      [{ id := 1 }, { id := 2, script := "pyexcore.PyExCore.execute(2)", params := "p" }] := by
  rw [(intake_new_job showResponse {} { req_id := 1, cd := { commands := [{ id := 1 }] } }
    { rpc_request := "p" } rfl (Or.inl rfl) (by decide) (by decide)).1]
  decide

theorem recorded_eq (ser : Response → String) (host : Host) (srv : Server)
    (po : ParseOutcome) (command : Execute) :
    recorded (onClientSockBufferReceived ser host srv po command) =
      some (intakeRequest ser
        (intakeLookup srv.cd.commands ((srv.req_id + 1) % U64) po command)) := by
  simp [recorded, intake_server]

theorem intake_response (ser : Response → String) (host : Host) (srv : Server)
    (po : ParseOutcome) (command : Execute) :
    (onClientSockBufferReceived ser host srv po command).response =
      intakeResponse (intakeLookup srv.cd.commands ((srv.req_id + 1) % U64) po command) := by
  unfold onClientSockBufferReceived
  simp only
  split_ifs <;> rfl

/-- C10, as the code has it: a decoded message with both a script and an rpc
payload is rejected.  The intake records exactly one job after the queued
ones, with the client's script (none is synthesized) and, as result, the
serialized response holding the new id and the error text; the dispatcher is
not notified.  The job is marked finished exactly when the message's
background flag is off; with the flag on it stays unfinished and its
response also carries PENDING. -/
theorem intake_rejects_script_with_rpc (ser : Response → String) (host : Host)
    (srv : Server) (command : Execute)
    (hs : command.script ≠ "") (hp : command.rpc_request ≠ "") :
    onClientSockBufferReceived ser host srv .parsed command =
      { rv := true, notify := false, posted := false
        response :=
          { job_id := some ((srv.req_id + 1) % 2 ^ 64)
            error := some "RPC request can't have 'script' value"
            job_status := if command.background = true then some .JS_PENDING else none }
        server :=
          { req_id := (srv.req_id + 1) % 2 ^ 64
            cd := { srv.cd with commands := srv.cd.commands ++ [{
              id := (srv.req_id + 1) % 2 ^ 64
              script := command.script
              scriptExternObj := command.script_extern_obj
              params := command.rpc_request
              background := command.background
              finished := !command.background
              result := ser
                { job_id := some ((srv.req_id + 1) % 2 ^ 64)
                  error := some "RPC request can't have 'script' value"
                  job_status :=
                    if command.background = true then some .JS_PENDING else none } }] } } } := by
  have hl := intakeLookup_rpc_script srv.cd.commands ((srv.req_id + 1) % U64) command hp hs
  rw [show (2 : Nat) ^ 64 = U64 from rfl]
  cases hb : command.background <;>
    simp [onClientSockBufferReceived, hl, intakeRequest, intakeResponse, newRequest, hb]

/-- The rejection theorem at a message with script "s" and payload "p". -/
theorem intake_rejects_script_with_rpc_witness :
    (onClientSockBufferReceived showResponse {} {} .parsed
        { script := "s", rpc_request := "p" }).server.cd.commands =
      [{ id := 1, script := "s", params := "p", finished := true,
         result := "id=1;out=;err=;error=RPC request can't have 'script' value;status=-;rpc=" }] := by
  rw [intake_rejects_script_with_rpc showResponse {} {} { script := "s", rpc_request := "p" }
    (by decide) (by decide)]
  decide

/-- C10 fails as stated: with the background flag on, the record of a
rejected message is not marked finished, so a tick with a client connected
sends nothing. -/
theorem intake_rejected_background_not_finished :
    (onClientSockBufferReceived showResponse {} {} .parsed
        { script := "s", rpc_request := "p", background := true }).server.cd.commands =
      [{ id := 1, script := "s", params := "p", background := true, finished := false,
         result := "id=1;out=;err=;error=RPC request can't have 'script' value;status=PENDING;rpc=" }] ∧
    (serverTick true
        { (onClientSockBufferReceived showResponse {} {} .parsed
            { script := "s", rpc_request := "p", background := true }).server.cd with
          s := some 7 }).sent = none := by
  decide

theorem intakeLookup_req_background (cmds : List Request) (id : Nat) (po : ParseOutcome)
    (command : Execute) :
    (intakeLookup cmds id po command).req.background = command.background := by
  unfold intakeLookup
  simp only [newRequest]
  split_ifs <;> try rfl
  split
  · rfl
  · split
    · rfl
    · split_ifs <;> rfl

theorem intakeLookup_req_result (cmds : List Request) (id : Nat) (po : ParseOutcome)
    (command : Execute) :
    (intakeLookup cmds id po command).req.result = "" ∨
    ∃ jobId pReq, command.job_id = some jobId ∧ find cmds jobId = some pReq ∧
      pReq.finished = true ∧ (intakeLookup cmds id po command).req.result = pReq.result := by
  unfold intakeLookup
  simp only [newRequest]
  split_ifs
  · exact Or.inl rfl
  · exact Or.inl rfl
  · split
    · exact Or.inl rfl
    · rename_i jobId hj
      split
      · exact Or.inl rfl
      · rename_i pReq hfind
        split_ifs with hf
        · exact Or.inl rfl
        · exact Or.inr ⟨jobId, pReq, hj, hfind, by simpa using hf, rfl⟩

theorem intakeLookup_answered (cmds : List Request) (id : Nat) (po : ParseOutcome)
    (command : Execute) (jobId : Nat) (hj : command.job_id = some jobId)
    (hp : command.rpc_request ≠ "") :
    (intakeLookup cmds id po command).errorStr ≠ "" ∨
    (intakeLookup cmds id po command).response.job_status.isSome = true := by
  unfold intakeLookup
  simp only [newRequest, hj]
  split_ifs with h1 h2
  · rcases h1 with h1 | h1
    · exact absurd h1 hp
    · exact Or.inl h1
  · exact Or.inl (by simp)
  · split
    · exact Or.inl (by simp)
    · split_ifs <;> exact Or.inr rfl

theorem intake_finished_of (ser : Response → String) (host : Host) (srv : Server)
    (po : ParseOutcome) (command : Execute)
    (hb : command.background = false)
    (ha : (intakeLookup srv.cd.commands ((srv.req_id + 1) % U64) po command).errorStr ≠ "" ∨
      (intakeLookup srv.cd.commands ((srv.req_id + 1) % U64) po command).response.job_status.isSome
        = true) :
    (onClientSockBufferReceived ser host srv po command).notify = false ∧
    (onClientSockBufferReceived ser host srv po command).posted = false ∧
    (onClientSockBufferReceived ser host srv po command).rv = true ∧
    recorded (onClientSockBufferReceived ser host srv po command) =
      some { (intakeLookup srv.cd.commands ((srv.req_id + 1) % U64) po command).req with
        result :=
          if (intakeLookup srv.cd.commands ((srv.req_id + 1) % U64) po command).req.result = ""
          then ser (onClientSockBufferReceived ser host srv po command).response
          else (intakeLookup srv.cd.commands ((srv.req_id + 1) % U64) po command).req.result
        finished := true } := by
  have hbg := intakeLookup_req_background srv.cd.commands ((srv.req_id + 1) % U64) po command
  rw [hb] at hbg
  have hcond : (intakeLookup srv.cd.commands ((srv.req_id + 1) % U64) po command).errorStr ≠ "" ∨
      (intakeLookup srv.cd.commands ((srv.req_id + 1) % U64) po command).req.background = true ∨
      (intakeLookup srv.cd.commands ((srv.req_id + 1) % U64) po command).response.job_status.isSome
        = true := by
    rcases ha with h | h
    · exact Or.inl h
    · exact Or.inr (Or.inr h)
  have hreq : intakeRequest ser
      (intakeLookup srv.cd.commands ((srv.req_id + 1) % U64) po command) =
      { (intakeLookup srv.cd.commands ((srv.req_id + 1) % U64) po command).req with
        result :=
          if (intakeLookup srv.cd.commands ((srv.req_id + 1) % U64) po command).req.result = ""
          then ser (intakeResponse
            (intakeLookup srv.cd.commands ((srv.req_id + 1) % U64) po command))
          else (intakeLookup srv.cd.commands ((srv.req_id + 1) % U64) po command).req.result
        finished := true } := by
    simp only [intakeRequest, if_pos hcond]
    split_ifs <;> simp_all
  have hfin : (intakeRequest ser
      (intakeLookup srv.cd.commands ((srv.req_id + 1) % U64) po command)).finished = true := by
    rw [hreq]
  refine ⟨?_, ?_, ?_, ?_⟩
  · simp [onClientSockBufferReceived, hfin]
  · simp [onClientSockBufferReceived, hfin]
  · simp [onClientSockBufferReceived, hfin]
  · rw [recorded_eq, intake_response, hreq]

/-- C7, as the code has it: a message that references a jobId, carries a
non-empty rpc payload and has the background flag off is answered at once,
whatever its script, the outcome of decoding it and the state of the
referenced job: the recorded entry is already finished and holds the
response bytes (the serialized response of the call, or the stored result of
the finished job it polled), and the intake does not reach the notification
statement. -/
theorem intake_poll_immediate (ser : Response → String) (host : Host) (srv : Server)
    (po : ParseOutcome) (command : Execute) (jobId : Nat)
    (hj : command.job_id = some jobId) (hp : command.rpc_request ≠ "")
    (hb : command.background = false) :
    (onClientSockBufferReceived ser host srv po command).notify = false ∧
    (onClientSockBufferReceived ser host srv po command).posted = false ∧
    (onClientSockBufferReceived ser host srv po command).rv = true ∧
    (recorded (onClientSockBufferReceived ser host srv po command)).map (fun r => r.finished)
      = some true ∧
    ((recorded (onClientSockBufferReceived ser host srv po command)).map (fun r => r.result)
        = some (ser (onClientSockBufferReceived ser host srv po command).response) ∨
      ∃ pReq, find srv.cd.commands jobId = some pReq ∧ pReq.finished = true ∧
        pReq.result ≠ "" ∧
        (recorded (onClientSockBufferReceived ser host srv po command)).map (fun r => r.result)
          = some pReq.result) := by
  have ha := intakeLookup_answered srv.cd.commands ((srv.req_id + 1) % U64) po command jobId hj hp
  obtain ⟨h1, h2, h3, h4⟩ := intake_finished_of ser host srv po command hb ha
  refine ⟨h1, h2, h3, by simp [h4], ?_⟩
  by_cases hr : (intakeLookup srv.cd.commands ((srv.req_id + 1) % U64) po command).req.result = ""
  · left
    simp [h4, hr]
  · right
    rcases intakeLookup_req_result srv.cd.commands ((srv.req_id + 1) % U64) po command with
      h | ⟨j2, pReq, hj2, hfind, hfin, hres⟩
    · exact absurd h hr
    · have hjj : j2 = jobId := by
        rw [hj] at hj2
        exact (Option.some.inj hj2).symm
      subst hjj
      have hr2 : pReq.result ≠ "" := by rw [← hres]; exact hr
      refine ⟨pReq, hfind, hfin, hr2, ?_⟩
      rw [h4]
      simp only [Option.map_some', hres, if_neg hr2]

/-- The immediate-answer theorem at a poll of the unfinished job 1. -/
theorem intake_poll_immediate_witness :
    (onClientSockBufferReceived showResponse {}
        { req_id := 1, cd := { commands := [{ id := 1 }] } } .parsed
        { rpc_request := "p", job_id := some 1 }).notify = false ∧
    (recorded (onClientSockBufferReceived showResponse {}
        { req_id := 1, cd := { commands := [{ id := 1 }] } } .parsed
        { rpc_request := "p", job_id := some 1 })).map (fun r => r.finished) = some true :=
  ⟨(intake_poll_immediate showResponse {} { req_id := 1, cd := { commands := [{ id := 1 }] } }
      .parsed { rpc_request := "p", job_id := some 1 } 1 rfl (by decide) rfl).1,
   (intake_poll_immediate showResponse {} { req_id := 1, cd := { commands := [{ id := 1 }] } }
      .parsed { rpc_request := "p", job_id := some 1 } 1 rfl (by decide) rfl).2.2.2.1⟩

/-- C7 fails as stated, at two messages that reference the queued,
unfinished job 1: a poll with the background flag on, and a message with a
jobId and no rpc payload.  In both the recorded entry is not finished and
the intake goes on to notify the dispatcher. -/
theorem intake_poll_not_immediate :
    ((onClientSockBufferReceived showResponse {}
        { req_id := 1, cd := { commands := [{ id := 1 }] } } .parsed
        { rpc_request := "p", job_id := some 1, background := true }).notify = true ∧
      (recorded (onClientSockBufferReceived showResponse {}
        { req_id := 1, cd := { commands := [{ id := 1 }] } } .parsed
        { rpc_request := "p", job_id := some 1, background := true })).map (fun r => r.finished)
        = some false) ∧
    ((onClientSockBufferReceived showResponse {}
        { req_id := 1, cd := { commands := [{ id := 1 }] } } .parsed
        { job_id := some 1 }).notify = true ∧
      recorded (onClientSockBufferReceived showResponse {}
        { req_id := 1, cd := { commands := [{ id := 1 }] } } .parsed
        { job_id := some 1 }) = some { id := 2, finished := false, result := "" }) := by
  decide

/-- C6, as the code has it: a decoded message that carries a jobId together
with a non-empty rpc payload and an empty script is treated as a poll.  When
no job with that id is queued the response carries the error "Job not
found" (and no status unless the message's own background flag adds
PENDING); when the job is queued the response carries no error and the
status PENDING or FINISHED of that job.  The recorded result is the
serialized response, except that a finished job's non-empty stored result is
recorded in its place. -/
theorem intake_poll_lookup (ser : Response → String) (host : Host) (srv : Server)
    (command : Execute) (jobId : Nat)
    (hp : command.rpc_request ≠ "") (hs : command.script = "")
    (hj : command.job_id = some jobId) :
    (find srv.cd.commands jobId = none →
      (onClientSockBufferReceived ser host srv .parsed command).response =
        { job_id := some ((srv.req_id + 1) % 2 ^ 64), error := some "Job not found",
          job_status := if command.background = true then some .JS_PENDING else none } ∧
      (recorded (onClientSockBufferReceived ser host srv .parsed command)).map
          (fun r => r.result)
        = some (ser (onClientSockBufferReceived ser host srv .parsed command).response)) ∧
    (∀ pReq, find srv.cd.commands jobId = some pReq →
      (onClientSockBufferReceived ser host srv .parsed command).response =
        { job_id := some ((srv.req_id + 1) % 2 ^ 64), error := none,
          job_status := some (if pReq.finished = true then .JS_FINISHED else .JS_PENDING) } ∧
      (recorded (onClientSockBufferReceived ser host srv .parsed command)).map
          (fun r => r.result)
        = some (if pReq.finished = true ∧ pReq.result ≠ "" then pReq.result
                else ser (onClientSockBufferReceived ser host srv .parsed command).response)) := by
  have hl := intakeLookup_poll srv.cd.commands ((srv.req_id + 1) % U64) command jobId hp hs hj
  rw [show (2 : Nat) ^ 64 = U64 from rfl]
  constructor
  · intro hfind
    simp only [hfind] at hl
    rw [recorded_eq, intake_response, hl]
    cases hb : command.background <;> simp [intakeRequest, intakeResponse, newRequest, hb]
  · intro pReq hfind
    simp only [hfind] at hl
    rw [recorded_eq, intake_response, hl]
    cases hf : pReq.finished <;> cases hb : command.background <;>
      by_cases hr : pReq.result = "" <;>
      simp [intakeRequest, intakeResponse, newRequest, hb, hr]

/-- The lookup theorem at a poll for job 5 on an empty queue. -/
theorem intake_poll_lookup_witness :
    (onClientSockBufferReceived showResponse {} {} .parsed
        { rpc_request := "p", job_id := some 5 }).response =
      { job_id := some 1, error := some "Job not found" } :=
  ((intake_poll_lookup showResponse {} {} { rpc_request := "p", job_id := some 5 } 5
    (by decide) rfl rfl).1 rfl).1

/-- C6 fails as stated: a decoded message with a jobId, an empty script and
an empty rpc payload is not looked up.  For an absent job 5 the response
carries no error and nothing is recorded as result; for the queued finished
job 1 the response carries no status; both times a new unfinished job is
queued and the dispatcher is notified. -/
theorem intake_jobid_without_payload_not_polled :
    ((onClientSockBufferReceived showResponse {} {} .parsed { job_id := some 5 }).response = {} ∧
      recorded (onClientSockBufferReceived showResponse {} {} .parsed { job_id := some 5 })
        = some { id := 1 } ∧
      (onClientSockBufferReceived showResponse {} {} .parsed { job_id := some 5 }).notify = true) ∧
    ((onClientSockBufferReceived showResponse {}
        { req_id := 1, cd := { commands := [{ id := 1, finished := true, result := "R" }] } }
        .parsed { job_id := some 1 }).response = {} ∧
      (onClientSockBufferReceived showResponse {}
        { req_id := 1, cd := { commands := [{ id := 1, finished := true, result := "R" }] } }
        .parsed { job_id := some 1 }).server.cd.commands =
        [{ id := 1, finished := true, result := "R" }, { id := 2 }]) := by
  decide

/-! ## A consumed job does not come back -/

theorem step_req_id (ser : Response → String) (srv : Server) (ev : Event)
    (hb : srv.req_id + intakes [ev] < U64) :
    (step ser srv ev).req_id = srv.req_id + intakes [ev] := by
  cases ev with
  | intake host po command =>
    have hb2 : srv.req_id + 1 < U64 := by simpa [intakes] using hb
    simp only [step, intakes]
    rw [intake_server]
    exact Nat.mod_eq_of_lt hb2
  | complete run => rfl
  | tick sendOk => rfl

theorem absent_step (ser : Response → String) (srv : Server) (ev : Event) (j : Nat)
    (hj : j ∉ ids srv.cd.commands) (hle : j ≤ srv.req_id)
    (hb : srv.req_id + intakes [ev] < U64) :
    j ∉ ids (step ser srv ev).cd.commands ∧ j ≤ (step ser srv ev).req_id := by
  have hid := step_req_id ser srv ev hb
  refine ⟨?_, by rw [hid]; omega⟩
  cases ev with
  | intake host po command =>
    have hb2 : srv.req_id + 1 < U64 := by simpa [intakes] using hb
    obtain ⟨sub, hsub, hids⟩ := intake_ids ser host srv po command
    rw [Nat.mod_eq_of_lt hb2] at hids
    simp only [step]
    rw [hids]
    intro hmem
    rcases List.mem_append.1 hmem with h | h
    · exact hj (hsub.subset h)
    · simp at h
      omega
  | complete run =>
    exact fun h => hj ((step_ids_of_not_intake ser srv (.complete run) rfl).2.subset h)
  | tick sendOk =>
    exact fun h => hj ((step_ids_of_not_intake ser srv (.tick sendOk) rfl).2.subset h)

theorem absent_runEvents (ser : Response → String) (evs : List Event) (srv : Server) (j : Nat)
    (hj : j ∉ ids srv.cd.commands) (hle : j ≤ srv.req_id)
    (hb : srv.req_id + intakes evs < U64) :
    j ∉ ids (runEvents ser srv evs).cd.commands ∧
    (runEvents ser srv evs).req_id = srv.req_id + intakes evs := by
  induction evs generalizing srv with
  | nil => exact ⟨hj, by simp [runEvents, intakes]⟩
  | cons ev rest ih =>
    rw [intakes_cons] at hb ⊢
    have h1 := absent_step ser srv ev j hj hle (by omega)
    have hid := step_req_id ser srv ev (by omega)
    have h2 := ih (step ser srv ev) h1.1 h1.2 (by rw [hid]; omega)
    simp only [runEvents, List.foldl_cons] at h2 ⊢
    exact ⟨h2.1, by rw [h2.2, hid]; omega⟩

theorem intake_poll_absent (ser : Response → String) (host : Host) (srv : Server)
    (command : Execute) (jobId : Nat)
    (hp : command.rpc_request ≠ "") (hs : command.script = "")
    (hj : command.job_id = some jobId) (hfind : find srv.cd.commands jobId = none) :
    (onClientSockBufferReceived ser host srv .parsed command).response =
      { job_id := some ((srv.req_id + 1) % U64), error := some "Job not found",
        job_status := if command.background = true then some .JS_PENDING else none } ∧
    (recorded (onClientSockBufferReceived ser host srv .parsed command)).map
        (fun r => (r.result, r.finished)) =
      some (ser (onClientSockBufferReceived ser host srv .parsed command).response,
        !command.background) ∧
    (onClientSockBufferReceived ser host srv .parsed command).notify = false := by
  have hl := intakeLookup_poll srv.cd.commands ((srv.req_id + 1) % U64) command jobId hp hs hj
  simp only [hfind] at hl
  refine ⟨?_, ?_, ?_⟩
  · rw [intake_response, hl]
    cases hb : command.background <;> simp [intakeResponse, newRequest, hb]
  · rw [recorded_eq, intake_response, hl]
    cases hb : command.background <;> simp [intakeRequest, intakeResponse, newRequest, hb]
  · simp [onClientSockBufferReceived, hl]

theorem intake_poll_finished_commands (ser : Response → String) (host : Host) (srv : Server)
    (command : Execute) (jobId : Nat) (pReq : Request)
    (hp : command.rpc_request ≠ "") (hs : command.script = "")
    (hj : command.job_id = some jobId) (hfind : find srv.cd.commands jobId = some pReq)
    (hfin : pReq.finished = true) :
    ids (onClientSockBufferReceived ser host srv .parsed command).server.cd.commands =
      ids (remove srv.cd.commands jobId).2 ++ [(srv.req_id + 1) % U64] := by
  have hl := intakeLookup_poll srv.cd.commands ((srv.req_id + 1) % U64) command jobId hp hs hj
  simp only [hfind, hfin] at hl
  have hid := intakeLookup_req_id srv.cd.commands ((srv.req_id + 1) % U64) .parsed command
  rw [intake_server, ids_append]
  simp only [ids, List.map_cons, List.map_nil, intakeRequest_id, hid]
  rw [hl]
  simp

/-- C3, as the code has it: in a queue whose ids strictly increase and stay
at or below the counter, once a poll (decoded, rpc payload, empty script)
for the id of a finished non-background job has consumed its result, the job
is no longer found, nor is it after any later events while the counter stays
below 2^64; every later poll for that id gets a recorded response with the
error "Job not found", an empty rpcResult and not the result of that job,
and the dispatcher is not notified.  That response carries no job status
when the later poll's own background flag is off; when it is on it carries
PENDING and the record is left unfinished. -/
theorem poll_consumes_once (ser : Response → String) (host1 host2 : Host) (srv : Server)
    (p1 p2 : Execute) (jobId : Nat) (job : Request) (evs : List Event)
    (hok : QueueOk srv)
    (hfind : find srv.cd.commands jobId = some job) (hfin : job.finished = true)
    (_hbg : job.background = false)
    (h1 : p1.rpc_request ≠ "" ∧ p1.script = "" ∧ p1.job_id = some jobId)
    (h2 : p2.rpc_request ≠ "" ∧ p2.script = "" ∧ p2.job_id = some jobId)
    (hb : srv.req_id + intakes evs + 2 < 2 ^ 64) :
    find (onClientSockBufferReceived ser host1 srv .parsed p1).server.cd.commands jobId = none ∧
    find (runEvents ser (onClientSockBufferReceived ser host1 srv .parsed p1).server
      evs).cd.commands jobId = none ∧
    (onClientSockBufferReceived ser host2
        (runEvents ser (onClientSockBufferReceived ser host1 srv .parsed p1).server evs)
        .parsed p2).response =
      { job_id := some (srv.req_id + intakes evs + 2), error := some "Job not found",
        job_status := if p2.background = true then some .JS_PENDING else none,
        rpc_result := "" } ∧
    (recorded (onClientSockBufferReceived ser host2
        (runEvents ser (onClientSockBufferReceived ser host1 srv .parsed p1).server evs)
        .parsed p2)).map (fun r => (r.result, r.finished)) =
      some (ser { job_id := some (srv.req_id + intakes evs + 2), error := some "Job not found",
                  job_status := if p2.background = true then some .JS_PENDING else none,
                  rpc_result := "" },
        !p2.background) ∧
    (onClientSockBufferReceived ser host2
        (runEvents ser (onClientSockBufferReceived ser host1 srv .parsed p1).server evs)
        .parsed p2).notify = false := by
  have hbU : srv.req_id + intakes evs + 2 < U64 := by simpa [U64] using hb
  have hmem := find_some_mem hfind
  have hle : jobId ≤ srv.req_id := by
    have := hok.2 job.id (mem_ids_of_mem hmem.1)
    omega
  have hnd : (ids srv.cd.commands).Nodup := hok.1.imp (fun hlt => Nat.ne_of_lt hlt)
  have hid1 : (onClientSockBufferReceived ser host1 srv .parsed p1).server.req_id
      = srv.req_id + 1 := by
    rw [intake_server]
    exact Nat.mod_eq_of_lt (by omega)
  have habs1 : jobId ∉ ids (onClientSockBufferReceived ser host1 srv .parsed p1).server.cd.commands := by
    rw [intake_poll_finished_commands ser host1 srv p1 jobId job h1.1 h1.2.1 h1.2.2 hfind hfin,
      Nat.mod_eq_of_lt (by omega)]
    intro hm
    rcases List.mem_append.1 hm with h | h
    · exact not_mem_ids_remove _ _ hnd h
    · simp at h
      omega
  have hrun := absent_runEvents ser evs
    (onClientSockBufferReceived ser host1 srv .parsed p1).server jobId habs1
    (by rw [hid1]; omega) (by rw [hid1]; omega)
  have hfind2 := (find_eq_none_iff _ _).2 hrun.1
  have hmod : ((runEvents ser (onClientSockBufferReceived ser host1 srv .parsed p1).server
      evs).req_id + 1) % U64 = srv.req_id + intakes evs + 2 := by
    rw [hrun.2, hid1, Nat.mod_eq_of_lt (by omega)]
    omega
  obtain ⟨ha, hb2, hc⟩ := intake_poll_absent ser host2
    (runEvents ser (onClientSockBufferReceived ser host1 srv .parsed p1).server evs)
    p2 jobId h2.1 h2.2.1 h2.2.2 hfind2
  rw [hmod] at ha
  rw [ha] at hb2
  exact ⟨(find_eq_none_iff _ _).2 habs1, hfind2, ha, hb2, hc⟩

/-- The consumption theorem at the finished job 1, polled, then a new script
job received and completed, then job 1 polled again. -/
theorem poll_consumes_once_witness :
    (onClientSockBufferReceived showResponse {}
        (runEvents showResponse
          (onClientSockBufferReceived showResponse {}
            { req_id := 1, cd := { commands := [{ id := 1, finished := true, result := "R" }] } }
            .parsed { rpc_request := "p", job_id := some 1 }).server
          [.intake {} .parsed { script := "print 1" }, .complete {}])
        .parsed { rpc_request := "p", job_id := some 1 }).response =
      { job_id := some 4, error := some "Job not found" } :=
  (poll_consumes_once showResponse {} {}
    { req_id := 1, cd := { commands := [{ id := 1, finished := true, result := "R" }] } }
    { rpc_request := "p", job_id := some 1 } { rpc_request := "p", job_id := some 1 }
    1 { id := 1, finished := true, result := "R" }
    [.intake {} .parsed { script := "print 1" }, .complete {}]
    (by simp [QueueOk, ids]) rfl rfl rfl ⟨by decide, rfl, rfl⟩ ⟨by decide, rfl, rfl⟩
    (by decide)).2.2.1

/-- C3 fails as stated: after the finished job 1 was consumed by a poll, a
later poll for id 1 whose own background flag is on gets a response that
carries a job status (PENDING) beside the error, and the record holding it
is not finished. -/
theorem later_background_poll_carries_status :
    (onClientSockBufferReceived showResponse {}
        (onClientSockBufferReceived showResponse {}
          { req_id := 1, cd := { commands := [{ id := 1, finished := true, result := "R" }] } }
          .parsed { rpc_request := "p", job_id := some 1 }).server
        .parsed { rpc_request := "p", job_id := some 1, background := true }).response =
      { job_id := some 3, error := some "Job not found", job_status := some .JS_PENDING } ∧
    (recorded (onClientSockBufferReceived showResponse {}
        (onClientSockBufferReceived showResponse {}
          { req_id := 1, cd := { commands := [{ id := 1, finished := true, result := "R" }] } }
          .parsed { rpc_request := "p", job_id := some 1 }).server
        .parsed { rpc_request := "p", job_id := some 1, background := true })).map
        (fun r => r.finished) = some false := by
  decide

/-- C4 at a finished background job: the poll records the stored result "R"
of job 1 but erases job 1 from the queue, so a second poll for id 1 gets
"Job not found". -/
theorem poll_removes_background_job :
    (onClientSockBufferReceived showResponse {}
        { req_id := 1,
          cd := { commands := [{ id := 1, background := true, finished := true, result := "R" }] } }
        .parsed { rpc_request := "p", job_id := some 1 }).server.cd.commands =
      [{ id := 2, script := "pyexcore.PyExCore.execute(2)", params := "p", result := "R",
         finished := true }] ∧
    find (onClientSockBufferReceived showResponse {}
        { req_id := 1,
          cd := { commands := [{ id := 1, background := true, finished := true, result := "R" }] } }
        .parsed { rpc_request := "p", job_id := some 1 }).server.cd.commands 1 = none ∧
    (onClientSockBufferReceived showResponse {}
        (onClientSockBufferReceived showResponse {}
          { req_id := 1,
            cd := { commands := [{ id := 1, background := true, finished := true, result := "R" }] } }
          .parsed { rpc_request := "p", job_id := some 1 }).server
        .parsed { rpc_request := "p", job_id := some 1 }).response.error
      = some "Job not found" := by
  decide

/-! ## Send failure during a tick -/

/-- C11 fails as stated: the newest job 1 is finished and one-shot, `send`
fails with a socket error, and the tick still removes the job, so `find`
no longer returns it and a later poll for id 1 gets "Job not found". -/
theorem tick_send_failure_drops_job :
    serverTickSend [.socketError "10054"]
        { s := some 7, commands := [{ id := 1, finished := true, result := "R" }] } =
      some { cd := { s := none, commands := [] }, sent := some (7, "R"), logged := true } ∧
    (onClientSockBufferReceived showResponse {}
        { req_id := 1, cd := { s := none, commands := [] } } .parsed
        { rpc_request := "p", job_id := some 1 }).response.error = some "Job not found" := by
  decide

/-- C11, as the code has it: when `sendAll` returns false during a tick
delivery the failure is only logged, and the tick goes on as after a
successful send: the socket is closed, a one-shot newest job is removed and
a background one is kept with `finished` reset and `result` cleared.  A
removed job with an id no other queued job has is no longer found, and a
later poll for it gets "Job not found". -/
theorem tick_send_failure (outcomes : List SendOutcome) (client : ClientData) (sock : Nat)
    (front : List Request) (back : Request) (r : SendAllResult)
    (hs : client.s = some sock) (hq : client.commands = front ++ [back])
    (hf : back.finished = true)
    (hsend : sendAll back.result outcomes 0 = some r) (hfail : r.rv = false) :
    ∃ t, serverTickSend outcomes client = some t ∧
      t.logged = true ∧ t.sent = some (sock, back.result) ∧ t.cd.s = none ∧
      t.cd.commands =
        (if back.background = true then
          front ++ [{ back with finished := false, result := "" }]
        else front) ∧
      (back.background = false → back.id ∉ ids front →
        find t.cd.commands back.id = none ∧
        ∀ (ser : Response → String) (host : Host) (req_id : Nat) (p : Execute),
          p.rpc_request ≠ "" → p.script = "" → p.job_id = some back.id →
          (onClientSockBufferReceived ser host { req_id := req_id, cd := t.cd }
            .parsed p).response.error = some "Job not found") := by
  have hl : client.commands.getLast? = some back := by simp [hq]
  refine ⟨serverTick r.rv client, ?_, ?_, ?_, ?_, ?_, ?_⟩
  · simp [serverTickSend, hs, hl, hf, hsend]
  · simp [serverTick, hs, hl, hf, hfail]
  · simp [serverTick, hs, hl, hf]
  · simp [serverTick, hs, hl, hf]
  · cases hb : back.background <;>
      simp [serverTick, hs, hl, hf, hb, hq, updateBack_concat]
  · intro hb hfresh
    have hc : (serverTick r.rv client).cd.commands = front := by
      simp [serverTick, hs, hl, hf, hb, hq]
    have hnone : find (serverTick r.rv client).cd.commands back.id = none := by
      rw [hc]
      exact (find_eq_none_iff _ _).2 hfresh
    refine ⟨hnone, ?_⟩
    intro ser host req_id p hp hsc hj
    have h := (intake_poll_absent ser host
      { req_id := req_id, cd := (serverTick r.rv client).cd } p back.id hp hsc hj hnone).1
    rw [h]

/-- The send-failure theorem at a queue of two one-shot jobs whose newest is
finished, with `send` failing on its first call. -/
theorem tick_send_failure_witness :
    ∃ t, serverTickSend [.socketError "10054"]
        { s := some 7, commands := [{ id := 1 }, { id := 2, finished := true, result := "R" }] }
        = some t ∧ t.logged = true ∧ t.cd.commands = [{ id := 1 }] := by
  obtain ⟨t, h1, h2, _, _, h5, _⟩ := tick_send_failure [.socketError "10054"]
    { s := some 7, commands := [{ id := 1 }, { id := 2, finished := true, result := "R" }] }
    7 [{ id := 1 }] { id := 2, finished := true, result := "R" }
    { rv := false, error := some "10054", total_sent := 0 } rfl rfl rfl (by decide) rfl
  exact ⟨t, h1, h2, by simpa using h5⟩

/-! ## `find` and `remove` -/

theorem remove_not_mem (commands : List Request) (jobId : Nat) (h : jobId ∉ ids commands) :
    remove commands jobId = (false, commands) := by
  induction commands with
  | nil => rfl
  | cons r rest ih =>
    have h1 : r.id ≠ jobId := by
      intro e
      exact h (by simp [ids, e])
    have h2 : jobId ∉ ids rest := by
      intro e
      exact h (by simp [ids] at e ⊢; exact Or.inr e)
    simp [remove, h1, ih h2]

theorem find_remove_split (pre : List Request) (r : Request) (post : List Request)
    (h : r.id ∉ ids pre) :
    find (pre ++ r :: post) r.id = some r ∧
    remove (pre ++ r :: post) r.id = (true, pre ++ post) := by
  induction pre with
  | nil => simp [find, remove]
  | cons a rest ih =>
    have ha : a.id ≠ r.id := by
      intro e
      exact h (by simp [ids, e])
    have hr : r.id ∉ ids rest := by
      intro e
      exact h (by simp [ids] at e ⊢; exact Or.inr e)
    simp [find, remove, ha, ih hr]

theorem remove_fst_iff (commands : List Request) (jobId : Nat) :
    (remove commands jobId).1 = true ↔ jobId ∈ ids commands := by
  induction commands with
  | nil => simp [remove, ids]
  | cons r rest ih =>
    by_cases h : r.id = jobId
    · simp [remove, ids, h]
    · have h2 : ¬ jobId = r.id := fun e => h e.symm
      simpa [remove, ids, h, h2] using ih

/-- C12: `find` returns the first queued job with the id (the search of
`firstWithId`) and nothing when no job has it; `remove` returns true exactly
when a job has the id, then erases that first job and keeps every other job,
in order, and otherwise returns false and leaves the queue as it is; with
pairwise distinct ids `find` returns nothing after `remove`. -/
theorem find_remove_spec (commands : List Request) (jobId : Nat) :
    find commands jobId = firstWithId commands jobId ∧
    (jobId ∉ ids commands →
      find commands jobId = none ∧ remove commands jobId = (false, commands)) ∧
    (∀ pre r post, commands = pre ++ r :: post → r.id = jobId → jobId ∉ ids pre →
      find commands jobId = some r ∧ remove commands jobId = (true, pre ++ post)) ∧
    ((remove commands jobId).1 = true ↔ jobId ∈ ids commands) ∧
    ((ids commands).Nodup → find (remove commands jobId).2 jobId = none) := by
  refine ⟨?_, ?_, ?_, remove_fst_iff commands jobId, ?_⟩
  · induction commands with
    | nil => rfl
    | cons r rest ih =>
      by_cases h : r.id = jobId
      · simp [find, firstWithId, h]
      · simpa [find, firstWithId, h] using ih
  · intro h
    exact ⟨(find_eq_none_iff _ _).2 h, remove_not_mem _ _ h⟩
  · intro pre r post hc hid hpre
    subst hc
    subst hid
    exact find_remove_split pre r post hpre
  · intro hnd
    exact (find_eq_none_iff _ _).2 (not_mem_ids_remove commands jobId hnd)

/-- The queue theorem at three jobs with ids 1, 2, 2: `find 2` returns the
first of the two and `remove 2` erases it only. -/
theorem find_remove_spec_witness :
    find [{ id := 1 }, { id := 2, script := "a" }, { id := 2, script := "b" }] 2
      = some { id := 2, script := "a" } ∧
    remove [{ id := 1 }, { id := 2, script := "a" }, { id := 2, script := "b" }] 2
      = (true, [{ id := 1 }, { id := 2, script := "b" }]) :=
  (find_remove_spec [{ id := 1 }, { id := 2, script := "a" }, { id := 2, script := "b" }] 2).2.2.1
    [{ id := 1 }] { id := 2, script := "a" } [{ id := 2, script := "b" }] rfl rfl (by decide)

/-! ## Reading one message from the socket -/

theorem readLoop_chunks (ser : Response → String) (host : Host)
    (parse : String → ParseOutcome × Execute) (chunks : List String) (srv : Server)
    (tail : List SockStep) (hne : ∀ c ∈ chunks, c.length ≠ 0) :
    readLoop ser host parse srv (chunks.map .recv ++ tail) =
      readLoop ser host parse
        { srv with cd := { srv.cd with netBuff := srv.cd.netBuff ++ joinChunks chunks } } tail := by
  induction chunks generalizing srv with
  | nil => simp [joinChunks]
  | cons c rest ih =>
    have hc : c.length ≠ 0 := hne c (List.mem_cons_self _ _)
    have hrest : ∀ c ∈ rest, c.length ≠ 0 := fun x hx => hne x (List.mem_cons_of_mem _ hx)
    have hstep : readLoop ser host parse srv (.recv c :: (rest.map .recv ++ tail)) =
        readLoop ser host parse
          { srv with cd := { srv.cd with netBuff := srv.cd.netBuff ++ c } }
          (rest.map .recv ++ tail) := by
      simp [readLoop, hc]
    rw [List.map_cons, List.cons_append, hstep, ih _ hrest]
    simp [joinChunks, String.append_assoc]

theorem intake_netBuff (ser : Response → String) (host : Host) (srv : Server)
    (po : ParseOutcome) (command : Execute) :
    (onClientSockBufferReceived ser host srv po command).server.cd.netBuff = srv.cd.netBuff := by
  rw [intake_server]

theorem onClientSockRead_eq_readLoop (ser : Response → String) (host : Host)
    (parse : String → ParseOutcome × Execute) (srv : Server) (sock : Nat)
    (steps : List SockStep) (hs : srv.cd.s = some sock) :
    onClientSockRead ser host parse srv steps = readLoop ser host parse srv steps := by
  unfold onClientSockRead
  rw [hs]

/-- C20: with a client socket, when every `recv` returns a non-empty chunk
until `FIONREAD` reports zero, `onClientSockRead` returns and passes the
decoder one buffer, the earlier content of `netBuff` followed by the chunks
in the order received, and `netBuff` is empty afterwards.  When instead a
`recv` returns zero bytes or fails, it returns false, passes nothing to the
decoder, and the queue and the id counter are as before. -/
theorem onClientSockRead_one_message (ser : Response → String) (host : Host)
    (parse : String → ParseOutcome × Execute) (srv : Server) (sock : Nat)
    (chunks : List String) (rest : List SockStep)
    (hs : srv.cd.s = some sock) (hne : ∀ c ∈ chunks, c.length ≠ 0) :
    (∃ out, onClientSockRead ser host parse srv (chunks.map .recv ++ .idle :: rest) = some out ∧
      out.handed = some (srv.cd.netBuff ++ joinChunks chunks) ∧
      out.server =
        (onClientSockBufferReceived ser host { srv with cd := { srv.cd with netBuff := "" } }
          (parse (srv.cd.netBuff ++ joinChunks chunks)).1
          (parse (srv.cd.netBuff ++ joinChunks chunks)).2).server ∧
      out.server.cd.netBuff = "") ∧
    (∀ bad, bad = SockStep.recv "" ∨ bad = SockStep.recvError →
      ∃ out, onClientSockRead ser host parse srv (chunks.map .recv ++ bad :: rest) = some out ∧
        out.rv = false ∧ out.handed = none ∧
        out.server.cd.commands = srv.cd.commands ∧ out.server.req_id = srv.req_id) := by
  constructor
  · refine ⟨{ rv := (onClientSockBufferReceived ser host
                { srv with cd := { srv.cd with netBuff := "" } }
                (parse (srv.cd.netBuff ++ joinChunks chunks)).1
                (parse (srv.cd.netBuff ++ joinChunks chunks)).2).rv
              handed := some (srv.cd.netBuff ++ joinChunks chunks)
              server := (onClientSockBufferReceived ser host
                { srv with cd := { srv.cd with netBuff := "" } }
                (parse (srv.cd.netBuff ++ joinChunks chunks)).1
                (parse (srv.cd.netBuff ++ joinChunks chunks)).2).server }, ?_, rfl, rfl, ?_⟩
    · rw [onClientSockRead_eq_readLoop ser host parse srv sock _ hs,
        readLoop_chunks ser host parse chunks srv _ hne]
      simp [readLoop]
    · simp only
      rw [intake_netBuff]
  · intro bad hbad
    refine ⟨{ rv := false, handed := none,
              server := { srv with cd := { srv.cd with
                netBuff := srv.cd.netBuff ++ joinChunks chunks } } }, ?_, rfl, rfl, rfl, rfl⟩
    rw [onClientSockRead_eq_readLoop ser host parse srv sock _ hs,
      readLoop_chunks ser host parse chunks srv _ hne]
    rcases hbad with h | h <;> subst h <;> simp [readLoop]

/-- The read theorem at a socket that delivers "ab" then "c" after "x" was
left in the buffer, with a decoder that reads every buffer as a script. -/
theorem onClientSockRead_one_message_witness :
    ∃ out, onClientSockRead showResponse {} (fun raw => (.parsed, { script := raw }))
        { cd := { s := some 7, netBuff := "x" } } [.recv "ab", .recv "c", .idle] = some out ∧
      out.handed = some "xabc" ∧ out.server.cd.netBuff = "" := by
  obtain ⟨out, h1, h2, _, h4⟩ := (onClientSockRead_one_message showResponse {}
    (fun raw => (.parsed, { script := raw })) { cd := { s := some 7, netBuff := "x" } } 7
    ["ab", "c"] [] rfl (by decide)).1
  exact ⟨out, h1, h2, h4⟩

/-! ## The command codec -/

theorem foldl_append_filter {α β : Type} (f : α → β) (p : α → Prop) [DecidablePred p]
    (l : List α) (init : List β) :
    l.foldl (fun acc x => if p x then acc ++ [f x] else acc) init =
      init ++ (l.filter (fun x => decide (p x))).map f := by
  induction l generalizing init with
  | nil => simp
  | cons a rest ih =>
    by_cases h : p a
    · simp [ih, h]
    · simp [ih, h]

theorem ICommand.parseResponse_ok (IsInitialized : Response → Bool) (d : RpcData)
    (response : Response) (self : ICommand)
    (hr : d.response = some response) (hi : IsInitialized response = true) :
    (ICommand.parseResponse IsInitialized (some d) self).rv = true ∧
    rpcResultOf (ICommand.parseResponse IsInitialized (some d) self).rd = response.rpc_result ∧
    (ICommand.parseResponse IsInitialized (some d) self).self =
      { stdOut := response.std_out
        stdErr := response.std_err
        error := response.error.getD ""
        jobId := response.job_id.getD self.jobId
        pending := match response.job_status with
          | some st => decide (st = JobStatus.JS_PENDING)
          | none => self.pending } := by
  simp only [ICommand.parseResponse, hr, hi]
  cases hj : response.job_id <;> cases hst : response.job_status <;>
    by_cases h0 : d.jobId = 0 <;> simp [rpcResultOf, hr, h0]

theorem ICommand.parseResponse_failed (IsInitialized : Response → Bool) (rd : Option RpcData)
    (self : ICommand) (h : (ICommand.parseResponse IsInitialized rd self).rv = false) :
    (ICommand.parseResponse IsInitialized rd self).self = self ∧
    (ICommand.parseResponse IsInitialized rd self).rd = rd := by
  cases rd with
  | none => exact ⟨rfl, rfl⟩
  | some d =>
    cases hr : d.response with
    | none => simp [ICommand.parseResponse, hr]
    | some response =>
      cases hi : IsInitialized response with
      | false => simp [ICommand.parseResponse, hr, hi]
      | true => simp [ICommand.parseResponse, hr, hi] at h

theorem trim_short (s : String) (h : s.length < 256) : trimToOllyLimitsString s = s := by
  unfold trimToOllyLimitsString OLLY_TEXTLEN
  rw [if_neg (by omega)]

theorem trim_long (s : String) (h : 256 ≤ s.length) :
    trimToOllyLimitsString s = String.mk (s.data.take 255) := by
  unfold trimToOllyLimitsString OLLY_TEXTLEN
  rw [if_pos h]

/-- C17: `trimToOllyLimitsString` returns a string of fewer than 256 bytes
as it is and the first 255 bytes of a longer one, so its result is the
leading `min |s| 255` bytes of `s` and trimming twice is trimming once; the
requests `FuncNameSync::serialize` and `LocalLabelsSync::serialize` write to
`params` name, for each entry in order, the entry's address and its trimmed
label. -/
theorem trimToOllyLimitsString_spec (s : String) :
    (s.length < 256 → trimToOllyLimitsString s = s) ∧
    (256 ≤ s.length → trimToOllyLimitsString s = String.mk (s.data.take 255)) ∧
    (trimToOllyLimitsString s).data = s.data.take (min s.length 255) ∧
    (trimToOllyLimitsString s).length = min s.length 255 ∧
    trimToOllyLimitsString (trimToOllyLimitsString s) = trimToOllyLimitsString s ∧
    (∀ (SerializeAsString : RpcRequest → String) (self : FuncNameSync) (rd : RpcData),
      (self.serialize SerializeAsString rd).2.params = SerializeAsString
        { request_type := .RPCT_MAKE_NAMES
          make_names_req := some
            { base := self.base, remote_base := self.remoteBase
              names := self.data.map
                (fun sd => { ea := sd.ea, name := trimToOllyLimitsString sd.label }) } }) ∧
    (∀ (SerializeAsString : RpcRequest → String) (self : LocalLabelsSync) (rd : RpcData),
      (self.serialize SerializeAsString rd).2.params = SerializeAsString
        { request_type := .RPCT_MAKE_COMMENTS
          make_comments_req := some
            { base := self.base, remote_base := self.remoteBase
              names := self.data.map
                (fun sd => { ea := sd.ea, name := trimToOllyLimitsString sd.label }) } }) := by
  refine ⟨trim_short s, trim_long s, ?_, ?_, ?_, fun _ _ _ => rfl, fun _ _ _ => rfl⟩
  · by_cases h : 256 ≤ s.length
    · rw [trim_long s h, Nat.min_eq_right (by omega)]
    · rw [trim_short s (by omega), Nat.min_eq_left (by omega)]
      exact (List.take_length s.data).symm
  · by_cases h : 256 ≤ s.length
    · rw [trim_long s h]
      show (s.data.take 255).length = min s.length 255
      have hlen : s.length = s.data.length := rfl
      rw [List.length_take]
      omega
    · rw [trim_short s (by omega)]
      omega
  · by_cases h : 256 ≤ s.length
    · rw [trim_long s h]
      apply trim_short
      show (s.data.take 255).length < 256
      rw [List.length_take]
      omega
    · rw [trim_short s (by omega), trim_short s (by omega)]

/-- The trimming theorem at a label of 3 bytes and at one of 300 bytes. -/
theorem trimToOllyLimitsString_spec_witness :
    trimToOllyLimitsString "abc" = "abc" ∧
    trimToOllyLimitsString (String.mk (List.replicate 300 'a')) =
      String.mk ((List.replicate 300 'a').take 255) :=
  ⟨(trimToOllyLimitsString_spec "abc").1 (by decide),
   (trimToOllyLimitsString_spec (String.mk (List.replicate 300 'a'))).2.1
     (by
       show 256 ≤ (List.replicate 300 'a').length
       rw [List.length_replicate]
       omega)⟩

theorem addPointers_eq (api_constants : List ApiConstantMsg) (ptrs : List PointerData) :
    AnalyzeExternalRefs.addPointers api_constants ptrs =
      ptrs ++ (api_constants.filter
        (fun v => decide (v.ea ≠ 0 ∧ v.module ≠ "" ∧ v.proc ≠ ""))).map PointerData.ofMsg := by
  have h := foldl_append_filter PointerData.ofMsg
    (fun v : ApiConstantMsg => v.ea ≠ 0 ∧ v.module ≠ "" ∧ v.proc ≠ "") api_constants ptrs
  rw [← h]
  unfold AnalyzeExternalRefs.addPointers
  congr 1
  funext acc v
  by_cases h1 : v.ea = 0 <;> by_cases h2 : v.module = "" <;> by_cases h3 : v.proc = "" <;>
    simp [PointerData.ofMsg, h1, h2, h3]

theorem addRefs_eq (refs : List RefMsg) (rdl : List RefData) :
    AnalyzeExternalRefs.addRefs refs rdl =
      rdl ++ (refs.filter
        (fun v => decide (v.ea ≠ 0 ∧ v.v ≠ 0 ∧ v.dis ≠ "" ∧ v.len > 0 ∧
          v.module ≠ "" ∧ v.proc ≠ ""))).map RefData.ofMsg := by
  have h := foldl_append_filter RefData.ofMsg
    (fun v : RefMsg => v.ea ≠ 0 ∧ v.v ≠ 0 ∧ v.dis ≠ "" ∧ v.len > 0 ∧
      v.module ≠ "" ∧ v.proc ≠ "") refs rdl
  rw [← h]
  rfl

/-- C16: when the envelope is valid and its rpcResult parses,
`AnalyzeExternalRefs::parseResponse` returns true and appends to `ptrs`
exactly the api_constants with non-zero address, non-empty module and
non-empty procedure, and to `rdl` exactly the refs with non-zero instruction
address, non-zero value, non-empty disassembly text, length above zero,
non-empty module and non-empty procedure, each list in the order of the
result and with the fields copied; a ref with empty disassembly text adds
nothing. -/
theorem AnalyzeExternalRefs_parseResponse_filter (IsInitialized : Response → Bool)
    (parseBigMessage : String → Parsed AnalyzeExternalRefsResult) (d : RpcData)
    (response : Response) (self : AnalyzeExternalRefs) (result : AnalyzeExternalRefsResult)
    (hr : d.response = some response) (hi : IsInitialized response = true)
    (hp : parseBigMessage response.rpc_result = .ok result) :
    (self.parseResponse IsInitialized parseBigMessage (some d)).rv = true ∧
    (self.parseResponse IsInitialized parseBigMessage (some d)).self.ptrs =
      self.ptrs ++
        (result.api_constants.filter
          (fun v => decide (v.ea ≠ 0 ∧ v.module ≠ "" ∧ v.proc ≠ ""))).map
          (fun v => { ea := v.ea, module := v.module, procName := v.proc }) ∧
    (self.parseResponse IsInitialized parseBigMessage (some d)).self.rdl =
      self.rdl ++
        (result.refs.filter
          (fun v => decide (v.ea ≠ 0 ∧ v.v ≠ 0 ∧ v.dis ≠ "" ∧ v.len > 0 ∧
            v.module ≠ "" ∧ v.proc ≠ ""))).map
          (fun v => { instrEA := v.ea, len := v.len, dis := v.dis, val := v.v,
                      type := v.ref_type, module := v.module, proc := v.proc }) ∧
    (∀ v : RefMsg, v.dis = "" →
      AnalyzeExternalRefs.addRefs [v] self.rdl = self.rdl) := by
  obtain ⟨h1, h2, _⟩ := ICommand.parseResponse_ok IsInitialized d response self.toICommand hr hi
  have hcall : self.parseResponse IsInitialized parseBigMessage (some d) =
      { rv := true
        self := { self with
                  toICommand := (ICommand.parseResponse IsInitialized (some d) self.toICommand).self
                  eip := result.eip
                  ptrs := AnalyzeExternalRefs.addPointers result.api_constants self.ptrs
                  rdl := AnalyzeExternalRefs.addRefs result.refs self.rdl }
        rd := (ICommand.parseResponse IsInitialized (some d) self.toICommand).rd } := by
    simp only [AnalyzeExternalRefs.parseResponse, h1, h2, hp]
    rfl
  refine ⟨by rw [hcall], ?_, ?_, ?_⟩
  · rw [hcall]
    exact addPointers_eq _ _
  · rw [hcall]
    exact addRefs_eq _ _
  · intro v hv
    rw [addRefs_eq]
    simp [hv]

/-- The filter theorem at a result with one valid and one address-less
pointer record, and one valid ref and one without disassembly text. -/
theorem AnalyzeExternalRefs_parseResponse_filter_witness :
    (({} : AnalyzeExternalRefs).parseResponse (fun _ => true)
        (fun _ => .ok
          { eip := 5
            api_constants := [{ ea := 1, module := "k32", proc := "f" },
                              { ea := 0, module := "k32", proc := "g" }]
            refs := [{ ea := 1, len := 2, dis := "call f", v := 3, ref_type := 0,
                       module := "k32", proc := "f" },
                     { ea := 1, len := 2, dis := "", v := 3, ref_type := 0,
                       module := "k32", proc := "f" }] })
        (some { response := some {} })).self.ptrs =
      [{ ea := 1, module := "k32", procName := "f" }] := by
  rw [(AnalyzeExternalRefs_parseResponse_filter (fun _ => true)
    (fun _ => .ok
      { eip := 5
        api_constants := [{ ea := 1, module := "k32", proc := "f" },
                          { ea := 0, module := "k32", proc := "g" }]
        refs := [{ ea := 1, len := 2, dis := "call f", v := 3, ref_type := 0,
                   module := "k32", proc := "f" },
                 { ea := 1, len := 2, dis := "", v := 3, ref_type := 0,
                   module := "k32", proc := "f" }] })
    { response := some {} } {} {} _ rfl rfl rfl).2.1]
  decide

/-! ## Merging the regions read -/

theorem mergeLoop_spec (memories : List ReadMemoryMsg) (i : Nat) (data : List t_memory)
    (h : i + memories.length ≤ data.length) :
    ∃ b data2, ReadMemoryRegions.mergeLoop memories i data = some (b, data2) ∧
      data2.length = data.length ∧
      (b = false ↔ ∃ k m mem, data[i + k]? = some m ∧ memories[k]? = some mem ∧
          (m.base ≠ mem.addr ∨ m.size ≠ mem.size)) ∧
      (b = true → ∀ k m mem, data[i + k]? = some m → memories[k]? = some mem →
          data2[i + k]? = some (m.merge mem)) ∧
      (∀ j, j < i ∨ i + memories.length ≤ j → data2[j]? = data[j]?) := by
  induction memories generalizing i data with
  | nil =>
    refine ⟨true, data, rfl, rfl, ?_, ?_, fun _ _ => rfl⟩
    · simp
    · intro _ k m mem _ hk
      simp at hk
  | cons memory rest ih =>
    have hi : i < data.length := by
      simp at h
      omega
    have hget : data[i]? = some data[i] := List.getElem?_eq_getElem hi
    have hnl : ¬ data.length < i := by omega
    by_cases hm : data[i].base ≠ memory.addr ∨ data[i].size ≠ memory.size
    · refine ⟨false, data, ?_, rfl, ?_, ?_, fun _ _ => rfl⟩
      · simp only [ReadMemoryRegions.mergeLoop, hnl, if_false, hget, if_pos hm]
      · simp only [true_iff]
        exact ⟨0, data[i], memory, by simp, by simp, hm⟩
      · intro hb
        cases hb
    · have hlen : (data.set i (data[i].merge memory)).length = data.length := List.length_set ..
      have h2 : i + 1 + rest.length ≤ (data.set i (data[i].merge memory)).length := by
        rw [hlen]
        simp at h
        omega
      obtain ⟨b, data2, heq, hl2, hiff, htrue, hunch⟩ :=
        ih (i + 1) (data.set i (data[i].merge memory)) h2
      have hset : ∀ j, j ≠ i → (data.set i (data[i].merge memory))[j]? = data[j]? := by
        intro j hj
        rw [List.getElem?_set]
        simp [Ne.symm hj]
      have hseti : (data.set i (data[i].merge memory))[i]? = some (data[i].merge memory) := by
        rw [List.getElem?_set]
        simp [hi]
      refine ⟨b, data2, ?_, hl2.trans hlen, ?_, ?_, ?_⟩
      · simp only [ReadMemoryRegions.mergeLoop, hnl, if_false, hget, if_neg hm]
        exact heq
      · constructor
        · intro hb
          obtain ⟨k, m, mem, hk1, hk2, hk3⟩ := hiff.1 hb
          refine ⟨k + 1, m, mem, ?_, by simpa using hk2, hk3⟩
          rw [hset (i + 1 + k) (by omega)] at hk1
          rw [show i + (k + 1) = i + 1 + k by omega]
          exact hk1
        · rintro ⟨k, m, mem, hk1, hk2, hk3⟩
          cases k with
          | zero =>
            simp only [Nat.add_zero, hget, Option.some.injEq] at hk1
            simp only [List.getElem?_cons_zero, Option.some.injEq] at hk2
            subst hk1
            subst hk2
            exact absurd hk3 hm
          | succ k =>
            refine hiff.2 ⟨k, m, mem, ?_, by simpa using hk2, hk3⟩
            rw [hset (i + 1 + k) (by omega), show i + 1 + k = i + (k + 1) by omega]
            exact hk1
      · intro hb k m mem hk1 hk2
        cases k with
        | zero =>
          simp only [Nat.add_zero, hget, Option.some.injEq] at hk1
          simp only [List.getElem?_cons_zero, Option.some.injEq] at hk2
          subst hk1
          subst hk2
          rw [Nat.add_zero, hunch i (Or.inl (by omega)), hseti]
        | succ k =>
          have := htrue hb k m mem
            (by rw [hset (i + 1 + k) (by omega), show i + 1 + k = i + (k + 1) by omega]
                exact hk1)
            (by simpa using hk2)
          rw [show i + (k + 1) = i + 1 + k by omega]
          exact this
      · intro j hj
        have hji : j ≠ i := by
          simp at hj
          omega
        rw [hunch j (by simp at hj ⊢; omega), hset j hji]

/-- C15: for a valid envelope whose rpcResult parses to no more records than
there are requested regions, `ReadMemoryRegions::parseResponse` returns, and
returns false exactly when some record differs from the region of the same
index in base or in size; when it returns true the region list keeps its
length, every region with a record keeps base and size, holds the record's
raw bytes and keeps a non-zero protect value (a zero one becomes the
record's), and the regions past the records are as before. -/
theorem ReadMemoryRegions_parseResponse_spec (IsInitialized : Response → Bool)
    (parseBigMessage : String → Parsed ReadMemoryRegionsResult) (d : RpcData)
    (response : Response) (self : ReadMemoryRegions) (result : ReadMemoryRegionsResult)
    (hr : d.response = some response) (hi : IsInitialized response = true)
    (hp : parseBigMessage response.rpc_result = .ok result)
    (hn : result.memories.length ≤ self.data.length) :
    ∃ out : CallResult ReadMemoryRegions,
      self.parseResponse IsInitialized parseBigMessage (some d) = some out ∧
      (out.rv = false ↔ ∃ (i : Nat) (m : t_memory) (mem : ReadMemoryMsg),
          self.data[i]? = some m ∧ result.memories[i]? = some mem ∧
          (m.base ≠ mem.addr ∨ m.size ≠ mem.size)) ∧
      (out.rv = true →
        out.self.data.length = self.data.length ∧
        (∀ (i : Nat) (m : t_memory) (mem : ReadMemoryMsg),
          self.data[i]? = some m → result.memories[i]? = some mem →
          out.self.data[i]? = some
            { base := m.base, size := m.size, raw := mem.mem
              protect := if m.protect = 0 then mem.protect else m.protect }) ∧
        (∀ i, result.memories.length ≤ i → out.self.data[i]? = self.data[i]?)) := by
  obtain ⟨h1, h2, _⟩ := ICommand.parseResponse_ok IsInitialized d response self.toICommand hr hi
  obtain ⟨b, data2, heq, hlen, hiff, htrue, hunch⟩ :=
    mergeLoop_spec result.memories 0 self.data (by omega)
  refine ⟨{ rv := b
            self := { toICommand := (ICommand.parseResponse IsInitialized (some d)
                        self.toICommand).self
                      data := data2 }
            rd := (ICommand.parseResponse IsInitialized (some d) self.toICommand).rd },
    ?_, ?_, ?_⟩
  · simp only [ReadMemoryRegions.parseResponse, h1, h2, hp, heq]
    rfl
  · simpa using hiff
  · intro hb
    refine ⟨hlen, ?_, ?_⟩
    · intro i m mem hm hmem
      have := htrue hb i m mem (by simpa using hm) hmem
      simpa [t_memory.merge] using this
    · intro i hle
      exact hunch i (Or.inr (by omega))

/-- The region theorem at two requested regions and two matching records;
the second region already had a protect value. -/
theorem ReadMemoryRegions_parseResponse_spec_witness :
    ∃ out : CallResult ReadMemoryRegions,
      ({ data := [{ base := 4096, size := 16 }, { base := 8192, size := 32, protect := 2 }] }
        : ReadMemoryRegions).parseResponse (fun _ => true)
        (fun _ => .ok { memories := [{ addr := 4096, size := 16, mem := "A", protect := 4 },
                                     { addr := 8192, size := 32, mem := "B", protect := 4 }] })
        (some { response := some {} }) = some out ∧
      (out.rv = true → out.self.data.length = 2) := by
  obtain ⟨out, h1, _, h3⟩ := ReadMemoryRegions_parseResponse_spec (fun _ => true)
    (fun _ => .ok { memories := [{ addr := 4096, size := 16, mem := "A", protect := 4 },
                                 { addr := 8192, size := 32, mem := "B", protect := 4 }] })
    { response := some {} } {}
    { data := [{ base := 4096, size := 16 }, { base := 8192, size := 32, protect := 2 }] }
    _ rfl rfl rfl (by decide)
  exact ⟨out, h1, fun hb => (h3 hb).1⟩

/-- C14 at the regions (0x1000, 0x10), (0x2000, 0x20) and the records
(0x1000, 0x10), (0x3000, 0x20): `parseResponse` returns false, yet the first
region has kept the raw bytes and the protect value of the first record. -/
theorem ReadMemoryRegions_mismatch_keeps_earlier_records :
    (({ data := [{ base := 0x1000, size := 0x10 }, { base := 0x2000, size := 0x20 }] }
        : ReadMemoryRegions).parseResponse (fun _ => true)
        (fun _ => .ok { memories := [{ addr := 0x1000, size := 0x10, mem := "AAAA", protect := 4 },
                                     { addr := 0x3000, size := 0x20, mem := "BBBB", protect := 4 }] })
        (some { response := some {} })).map (fun out => (out.rv, out.self.data)) =
      some (false, [{ base := 0x1000, size := 0x10, raw := "AAAA", protect := 4 },
                    { base := 0x2000, size := 0x20 }]) := by
  decide

/-- C18 at `AnalyzeExternalRefs` and `CheckPEHeaders`: parsing the same
response a second time into the command appends the records again, so the
pointer list and the export list hold each record twice. -/
theorem parseResponse_twice_duplicates :
    ((({} : AnalyzeExternalRefs).parseResponse (fun _ => true)
        (fun _ => .ok { eip := 5, api_constants := [{ ea := 1, module := "k32", proc := "f" }],
                        refs := [] })
        (some { response := some {} })).self.ptrs = [{ ea := 1, module := "k32", procName := "f" }] ∧
      ((({} : AnalyzeExternalRefs).parseResponse (fun _ => true)
        (fun _ => .ok { eip := 5, api_constants := [{ ea := 1, module := "k32", proc := "f" }],
                        refs := [] })
        (some { response := some {} })).self.parseResponse (fun _ => true)
        (fun _ => .ok { eip := 5, api_constants := [{ ea := 1, module := "k32", proc := "f" }],
                        refs := [] })
        (some { response := some {} })).self.ptrs =
        [{ ea := 1, module := "k32", procName := "f" },
         { ea := 1, module := "k32", procName := "f" }]) ∧
    ((({} : CheckPEHeaders).parseResponse (fun _ => true)
        (fun _ => .ok { pe_valid := true, exps := [{ ea := 1, ord := 2, name := "f" }],
                        sections := [] })
        (some { response := some {} })).self.parseResponse (fun _ => true)
        (fun _ => .ok { pe_valid := true, exps := [{ ea := 1, ord := 2, name := "f" }],
                        sections := [] })
        (some { response := some {} })).self.exports =
      [{ ea := 1, ord := 2, name := "f" }, { ea := 1, ord := 2, name := "f" }] := by
  decide

/-! ## An rpcResult that does not parse -/

/-- C19 fails as stated: `GetMemoryMapReq::parseResponse` on a valid
envelope whose rpcResult does not parse returns false, but the command's
stdOut, stdErr, error, jobId and pending flag are by then those of the
envelope, not what they were before the call. -/
theorem unparsable_result_changes_common_fields :
    (({} : GetMemoryMapReq).parseResponse (fun _ => true) (fun _ => .failed)
        (some { response := some { std_out := "out", std_err := "err", error := some "boom",
                                   job_id := some 7, job_status := some .JS_PENDING,
                                   rpc_result := "garbage" } })).rv = false ∧
    (({} : GetMemoryMapReq).parseResponse (fun _ => true) (fun _ => .failed)
        (some { response := some { std_out := "out", std_err := "err", error := some "boom",
                                   job_id := some 7, job_status := some .JS_PENDING,
                                   rpc_result := "garbage" } })).self =
      { stdOut := "out", stdErr := "err", error := "boom", jobId := 7, pending := true,
        data := [] } := by
  decide

/-- C19, as the code has it: for GetMemoryMap, ReadMemoryRegions,
AnalyzeExternalRefs and CheckPEHeaders, on a valid envelope whose rpcResult
does not parse into the expected type (the parser returns false or throws),
`parseResponse` returns false and leaves the typed result as it was; the
common fields were already taken from the envelope by
`ICommand::parseResponse`: stdOut, stdErr and error always, jobId and the
pending flag when the envelope carries them. -/
theorem parseResponse_unparsable (IsInitialized : Response → Bool)
    (pMap : String → Parsed GetMemoryMapResult)
    (pRead : String → Parsed ReadMemoryRegionsResult)
    (pRefs : String → Parsed AnalyzeExternalRefsResult)
    (pPE : String → Parsed CheckPEHeadersResult)
    (d : RpcData) (response : Response)
    (hr : d.response = some response) (hi : IsInitialized response = true)
    (hMap : ∀ result, pMap response.rpc_result ≠ .ok result)
    (hRead : ∀ result, pRead response.rpc_result ≠ .ok result)
    (hRefs : ∀ result, pRefs response.rpc_result ≠ .ok result)
    (hPE : ∀ result, pPE response.rpc_result ≠ .ok result) :
    (∀ self : GetMemoryMapReq,
      (self.parseResponse IsInitialized pMap (some d)).rv = false ∧
      (self.parseResponse IsInitialized pMap (some d)).self =
        { self with
          stdOut := response.std_out, stdErr := response.std_err
          error := response.error.getD ""
          jobId := response.job_id.getD self.jobId
          pending := match response.job_status with
            | some st => decide (st = JobStatus.JS_PENDING)
            | none => self.pending }) ∧
    (∀ self : ReadMemoryRegions,
      self.parseResponse IsInitialized pRead (some d) = some
        { rv := false
          self := { self with
            stdOut := response.std_out, stdErr := response.std_err
            error := response.error.getD ""
            jobId := response.job_id.getD self.jobId
            pending := match response.job_status with
              | some st => decide (st = JobStatus.JS_PENDING)
              | none => self.pending }
          rd := (ICommand.parseResponse IsInitialized (some d) self.toICommand).rd }) ∧
    (∀ self : AnalyzeExternalRefs,
      (self.parseResponse IsInitialized pRefs (some d)).rv = false ∧
      (self.parseResponse IsInitialized pRefs (some d)).self =
        { self with
          stdOut := response.std_out, stdErr := response.std_err
          error := response.error.getD ""
          jobId := response.job_id.getD self.jobId
          pending := match response.job_status with
            | some st => decide (st = JobStatus.JS_PENDING)
            | none => self.pending }) ∧
    (∀ self : CheckPEHeaders,
      (self.parseResponse IsInitialized pPE (some d)).rv = false ∧
      (self.parseResponse IsInitialized pPE (some d)).self =
        { self with
          stdOut := response.std_out, stdErr := response.std_err
          error := response.error.getD ""
          jobId := response.job_id.getD self.jobId
          pending := match response.job_status with
            | some st => decide (st = JobStatus.JS_PENDING)
            | none => self.pending }) := by
  refine ⟨?_, ?_, ?_, ?_⟩
  · intro self
    obtain ⟨h1, h2, h3⟩ := ICommand.parseResponse_ok IsInitialized d response self.toICommand hr hi
    cases hp : pMap response.rpc_result with
    | ok result => exact absurd hp (hMap result)
    | failed => simp [GetMemoryMapReq.parseResponse, h1, h2, h3, hp]
    | threw => simp [GetMemoryMapReq.parseResponse, h1, h2, h3, hp]
  · intro self
    obtain ⟨h1, h2, h3⟩ := ICommand.parseResponse_ok IsInitialized d response self.toICommand hr hi
    cases hp : pRead response.rpc_result with
    | ok result => exact absurd hp (hRead result)
    | failed => simp [ReadMemoryRegions.parseResponse, h1, h2, h3, hp]
    | threw => simp [ReadMemoryRegions.parseResponse, h1, h2, h3, hp]
  · intro self
    obtain ⟨h1, h2, h3⟩ := ICommand.parseResponse_ok IsInitialized d response self.toICommand hr hi
    cases hp : pRefs response.rpc_result with
    | ok result => exact absurd hp (hRefs result)
    | failed => simp [AnalyzeExternalRefs.parseResponse, h1, h2, h3, hp]
    | threw => simp [AnalyzeExternalRefs.parseResponse, h1, h2, h3, hp]
  · intro self
    obtain ⟨h1, h2, h3⟩ := ICommand.parseResponse_ok IsInitialized d response self.toICommand hr hi
    cases hp : pPE response.rpc_result with
    | ok result => exact absurd hp (hPE result)
    | failed => simp [CheckPEHeaders.parseResponse, h1, h2, h3, hp]
    | threw => simp [CheckPEHeaders.parseResponse, h1, h2, h3, hp]

/-- The unparsable-result theorem at an envelope with stdOut "out" and a
region list that must stay as it is. -/
theorem parseResponse_unparsable_witness :
    (({ data := [{ base := 1, size := 2, access := 3 }] } : GetMemoryMapReq).parseResponse
        (fun _ => true) (fun _ => .failed)
        (some { response := some { std_out := "out" } })).self =
      { stdOut := "out", data := [{ base := 1, size := 2, access := 3 }] } :=
  ((parseResponse_unparsable (fun _ => true) (fun _ => .failed) (fun _ => .failed)
    (fun _ => .threw) (fun _ => .failed) { response := some { std_out := "out" } }
    { std_out := "out" } rfl rfl (by intro r h; cases h) (by intro r h; cases h)
    (by intro r h; cases h) (by intro r h; cases h)).1
    { data := [{ base := 1, size := 2, access := 3 }] }).2

/-! ## Requests written and results read back -/

theorem startsWith_iff (needle s : List Char) :
    startsWith needle s = true ↔ ∃ post, s = needle ++ post := by
  induction needle generalizing s with
  | nil => simp [startsWith]
  | cons a needle ih =>
    cases s with
    | nil => simp [startsWith]
    | cons b s =>
      simp only [startsWith, Bool.and_eq_true, beq_iff_eq, ih, List.cons_append,
        List.cons.injEq]
      constructor
      · rintro ⟨hab, post, hp⟩
        exact ⟨post, hab.symm, hp⟩
      · rintro ⟨post, hab, hp⟩
        exact ⟨hab.symm, post, hp⟩

theorem findFrom_isSome_iff (needle s : List Char) (pos : Nat) :
    (findFrom needle s pos).isSome = true ↔ ∃ pre post, s = pre ++ needle ++ post := by
  induction s generalizing pos with
  | nil =>
    by_cases hn : needle = []
    · simp [findFrom, hn]
    · simp [findFrom, hn]
  | cons c rest ih =>
    by_cases hsw : startsWith needle (c :: rest) = true
    · simp only [findFrom, hsw, if_true, Option.isSome_some, true_iff]
      obtain ⟨post, hp⟩ := (startsWith_iff _ _).1 hsw
      exact ⟨[], post, by simpa using hp⟩
    · simp only [findFrom, hsw]
      rw [if_neg (by simp), ih]
      constructor
      · rintro ⟨pre, post, hp⟩
        exact ⟨c :: pre, post, by simp [hp]⟩
      · rintro ⟨pre, post, hp⟩
        cases pre with
        | nil =>
          exact absurd ((startsWith_iff _ _).2 ⟨post, by simpa using hp⟩) hsw
        | cons c2 pre =>
          simp only [List.cons_append, List.cons.injEq] at hp
          exact ⟨pre, post, hp.2⟩

/-- C21: when `accept` returns a socket, the peer address is rendered and
the three `setsockopt` calls and the `WSAIoctl` call succeed, a peer is
adopted whenever the IP filter is empty and, with a non-empty filter,
exactly when the filter occurs in the peer address string.  A call that
returns false leaves the client data, so the active socket, peer and peer
port, as they were; a call that returns true sets all three to those of the
new connection. -/
theorem onClientSockAccept_filter (env : AcceptEnv) (cd : ClientData) (sock : Nat)
    (hs : env.s = some sock) (hp : env.peer ≠ "")
    (hk : env.keepAlive = true) (hr : env.rcvTimeo = true) (hsn : env.sndTimeo = true)
    (hv : env.keepAliveVals = true) :
    (env.filterIp = "" → (onClientSockAccept env cd).rv = true) ∧
    (env.filterIp ≠ "" →
      ((onClientSockAccept env cd).rv = true ↔
        ∃ pre post : String, env.peer = pre ++ env.filterIp ++ post)) ∧
    ((onClientSockAccept env cd).rv = false → (onClientSockAccept env cd).cd = cd) ∧
    ((onClientSockAccept env cd).rv = true →
      (onClientSockAccept env cd).cd =
        { cd with s := some sock, peer := env.peer, peerPort := env.sin_port }) := by
  have hsub : (findFrom env.filterIp.data env.peer.data 0).isSome = true ↔
      ∃ pre post : String, env.peer = pre ++ env.filterIp ++ post := by
    rw [findFrom_isSome_iff]
    constructor
    · rintro ⟨pre, post, h⟩
      exact ⟨String.mk pre, String.mk post, String.ext (by simpa using h)⟩
    · rintro ⟨pre, post, h⟩
      exact ⟨pre.data, post.data, by rw [h]; simp⟩
  by_cases hf : env.filterIp = ""
  · have hcall : onClientSockAccept env cd =
        { rv := true
          cd := { cd with s := some sock, peer := env.peer, peerPort := env.sin_port }
          closed := match cd.s with
            | some old => [some old]
            | none => [] } := by
      simp [onClientSockAccept, hp, hf, hs, hk, hr, hsn, hv]
    rw [hcall]
    refine ⟨fun _ => rfl, fun h => absurd hf h, ?_, fun _ => rfl⟩
    intro h
    simp at h
  · cases hfind : findFrom env.filterIp.data env.peer.data 0 with
    | none =>
      have hcall : onClientSockAccept env cd = { rv := false, cd := cd, closed := [env.s] } := by
        simp [onClientSockAccept, hp, hf, hfind]
      have hno : ¬ ∃ pre post : String, env.peer = pre ++ env.filterIp ++ post := by
        rw [← hsub, hfind]
        simp
      rw [hcall]
      refine ⟨fun h => absurd h hf, fun _ => ⟨?_, fun h => absurd h hno⟩, fun _ => rfl, ?_⟩
      · intro h
        simp at h
      · intro h
        simp at h
    | some pos =>
      have hcall : onClientSockAccept env cd =
          { rv := true
            cd := { cd with s := some sock, peer := env.peer, peerPort := env.sin_port }
            closed := match cd.s with
              | some old => [some old]
              | none => [] } := by
        simp [onClientSockAccept, hp, hf, hfind, hs, hk, hr, hsn, hv]
      have hyes : ∃ pre post : String, env.peer = pre ++ env.filterIp ++ post := by
        rw [← hsub, hfind]
        rfl
      rw [hcall]
      refine ⟨fun _ => rfl, fun _ => ⟨fun _ => hyes, fun _ => rfl⟩, ?_, fun _ => rfl⟩
      intro h
      simp at h

/-- The accept theorem at the filter "10.0.0.5": the peer "10.0.0.5:4321"
replaces the active client, the peer "10.0.0.7:4321" is turned away. -/
theorem onClientSockAccept_filter_witness :
    (onClientSockAccept
        { s := some 9, peer := "10.0.0.5:4321", sin_port := 4321, filterIp := "10.0.0.5" }
        { s := some 3, peer := "10.0.0.1:80", peerPort := 80 }).cd =
      { s := some 9, peer := "10.0.0.5:4321", peerPort := 4321 } ∧
    (onClientSockAccept
        { s := some 9, peer := "10.0.0.7:4321", sin_port := 4321, filterIp := "10.0.0.5" }
        { s := some 3, peer := "10.0.0.1:80", peerPort := 80 }).cd =
      { s := some 3, peer := "10.0.0.1:80", peerPort := 80 } :=
  ⟨(onClientSockAccept_filter
      { s := some 9, peer := "10.0.0.5:4321", sin_port := 4321, filterIp := "10.0.0.5" }
      { s := some 3, peer := "10.0.0.1:80", peerPort := 80 } 9 rfl (by decide) rfl rfl rfl
      rfl).2.2.2 (by decide),
   (onClientSockAccept_filter
      { s := some 9, peer := "10.0.0.7:4321", sin_port := 4321, filterIp := "10.0.0.5" }
      { s := some 3, peer := "10.0.0.1:80", peerPort := 80 } 9 rfl (by decide) rfl rfl rfl
      rfl).2.2.1 (by decide)⟩

/-! ## Surplus records -/

/-- C22 at a result with one record more than there are requested regions:
with no region and one record, and with one region and two records whose
first matches, the loop reaches `data[i]` with `i` equal to `data.size()`,
which the guard `data.size() < i` lets through, so the read is past the end
of `data`. -/
theorem ReadMemoryRegions_surplus_record_out_of_range :
    ReadMemoryRegions.mergeLoop [{ addr := 0x1000, size := 0x10, mem := "AAAA", protect := 4 }]
        0 [] = none ∧
    (({} : ReadMemoryRegions).parseResponse (fun _ => true)
        (fun _ => .ok { memories := [{ addr := 0x1000, size := 0x10, mem := "AAAA",
                                       protect := 4 }] })
        (some { response := some {} })) = none ∧
    (({ data := [{ base := 0x1000, size := 0x10 }] } : ReadMemoryRegions).parseResponse
        (fun _ => true)
        (fun _ => .ok { memories := [{ addr := 0x1000, size := 0x10, mem := "AAAA", protect := 4 },
                                     { addr := 0x2000, size := 0x20, mem := "BBBB", protect := 4 }] })
        (some { response := some {} })) = none := by
  decide

end Labeless
